import Mathlib

/-!
# Verification of the ModalEffect synthesis core

Shallow embedding of the ModalEffect repository's DSP core
(SynthEngine / EventQueue from `SynthEngine.h` / `SynthEngine.cpp`,
`ModalVoice.cpp`, `NodeManager.cpp`, `VoiceAllocator.cpp`,
`NodeCharacter.cpp`, `audio_synth.c`, `modal_node.h`) and proofs about it.

Modelling conventions:
* C `float` quantities are embedded as `ℚ`; all claims verified here are
  control-flow / state-machine properties that do not depend on rounding.
* Transcendental frequency values (`midi_to_freq(note) · 2^(bend·2/12) · mult`)
  are carried symbolically by `FreqSym`: two equal `FreqSym` values denote
  equal real frequencies, which is all the verified properties use.
* The implementation file `modal_node.c` is not part of the repository
  snapshot (only `modal_node.h` and its callers are); the handful of modal-node
  operations it defines are modelled from the specification, each marked
  `Modelled from the spec:` in its doc comment.  Likewise `ModalVoice.h`
  (accessors `isActive`, `getAge`) and the `TopologyEngine` implementation.
* Fixed C arrays become functions out of `Fin n`; the `uint8_t 0xFF` sentinel
  of `note_to_node_` is kept as the numeral 255, and the `int8_t -1` sentinel
  of `note_to_voice_` as the integer -1.
-/

/-- Oscillator wave shapes (`wave_shape_t` in `modal_node.h`). -/
inductive WaveShape where
  | sine
  | sawtooth
  | triangle
  | square
  | pulse25
  | pulse10
deriving DecidableEq

/-- Node personality (`node_personality_t` in `modal_node.h`). -/
inductive Personality where
  | resonator
  | selfOscillator
deriving DecidableEq

/-- Symbolic frequency value, denoting `midi_to_freq note · 2^(bend·2/12) · mult`
Hertz.  `midi_to_freq` and the pitch-bend power are transcendental, so the
embedding keeps the three constituents instead of a numeric value; no verified
property depends on the numeric value, only on equality of frequencies. -/
structure FreqSym where
  note : ℕ
  bend : ℚ
  mult : ℚ
deriving DecidableEq

/-- Scale a symbolic frequency by a rational factor (`base_freq * multiplier`). -/
def FreqSym.scale (f : FreqSym) (q : ℚ) : FreqSym :=
  { f with mult := f.mult * q }

/-- Parameters of one mode (`mode_params_t`).  The field `freq` stands for the
angular frequency `omega = 2π·freq` through the symbolic Hz value. -/
structure ModeParams where
  freq : FreqSym
  gamma : ℚ
  weight : ℚ
  shape : WaveShape
  active : Bool
deriving DecidableEq

/-- State of one mode (`mode_state_t`).  Modelled from the spec: the complex
amplitude `a` of `modal_node.c` (missing from the snapshot) is represented by
its magnitude `amp = |a|`, the only quantity the verified operations read. -/
structure ModeState where
  amp : ℚ
  params : ModeParams
deriving DecidableEq

/-- Modal node (`modal_node_t`).  The excitation-envelope fields of
`modal_node.c` (missing from the snapshot) are not represented: following the
spec's description, a poke is applied as an immediate additive injection. -/
structure ModalNode where
  nodeId : ℕ
  personality : Personality
  modes : Fin 4 → ModeState
  couplingStrength : ℚ
  globalDamping : ℚ
  stepCount : ℕ
  running : Bool
deriving DecidableEq

/-- `CONTROL_DT = 1 / CONTROL_RATE_HZ` with `CONTROL_RATE_HZ = 500`. -/
def controlDT : ℚ := 1 / 500

/-- Modelled from the spec: the per-step decay factor `exp(-γ·Δt)` of the exact
exponential update in the missing `modal_node.c`.  The transcendental value is
replaced by the rational surrogate `1/(1+γ·Δt)`, which shares the properties
the spec relies on (in `(0,1]` for `γ ≥ 0`, decreasing in `γ`); no verified
claim depends on the numeric value. -/
def stepDecay (g : ℚ) : ℚ := 1 / (1 + g * controlDT)

/-- Modelled from the spec: `modal_node_init` of the missing `modal_node.c`.
All four modes start active with zero amplitude and default tuning. -/
def modalNodeInit (nodeId : ℕ) (personality : Personality) : ModalNode where
  nodeId := nodeId
  personality := personality
  modes := fun _ =>
    { amp := 0
      params :=
        { freq := ⟨60, 0, 1⟩, gamma := 1, weight := 1
          shape := .sine, active := true } }
  couplingStrength := 1
  globalDamping := 0
  stepCount := 0
  running := false

/-- Modelled from the spec: `modal_node_set_mode` of the missing
`modal_node.c` configures frequency, damping and weight of one mode, leaving
its amplitude, shape and active flag alone. -/
def modalNodeSetMode (n : ModalNode) (idx : Fin 4) (freq : FreqSym)
    (gamma weight : ℚ) : ModalNode :=
  { n with
    modes := Function.update n.modes idx
      (let m := n.modes idx
       { m with params := { m.params with freq := freq, gamma := gamma, weight := weight } }) }

/-- Modelled from the spec: `modal_node_apply_poke` of the missing
`modal_node.c` "injects excitation as an additive term to each active mode's
amplitude, scaled by per-mode weight". -/
def modalNodeApplyPoke (n : ModalNode) (strength : ℚ) (modeWeights : Fin 4 → ℚ) :
    ModalNode :=
  { n with
    modes := fun k =>
      let m := n.modes k
      if m.params.active then { m with amp := m.amp + strength * modeWeights k } else m }

/-- Modelled from the spec: `modal_node_step` of the missing `modal_node.c`
advances every active mode one control-rate timestep with the exact
exponential update; global damping is added uniformly to each mode's `γ`. -/
def modalNodeStep (n : ModalNode) : ModalNode :=
  if n.running then
    { n with
      modes := fun k =>
        let m := n.modes k
        if m.params.active then
          { m with amp := m.amp * stepDecay (m.params.gamma + n.globalDamping) }
        else m
      stepCount := n.stepCount + 1 }
  else n

/-- The contribution of one mode to the node amplitude: `weight·|a_k|` for an
active mode, 0 for an inactive one. -/
def modeAmpTerm (n : ModalNode) (k : Fin 4) : ℚ :=
  if (n.modes k).params.active then (n.modes k).params.weight * (n.modes k).amp else 0

/-- Modelled from the spec: `modal_node_get_amplitude` of the missing
`modal_node.c` returns the weighted sum of `|a_k|` across active modes. -/
def modalNodeGetAmplitude (n : ModalNode) : ℚ :=
  modeAmpTerm n 0 + modeAmpTerm n 1 + modeAmpTerm n 2 + modeAmpTerm n 3

/-- Modelled from the spec: `modal_node_reset` of the missing `modal_node.c`
clears all mode amplitudes to zero (configuration is kept). -/
def modalNodeReset (n : ModalNode) : ModalNode :=
  { n with modes := fun k => { n.modes k with amp := 0 }, stepCount := 0 }

/-- `modal_node_start` (missing `modal_node.c`): sets the running flag. -/
def modalNodeStart (n : ModalNode) : ModalNode := { n with running := true }

/-- Voice state machine of `ModalVoice` (`State` in the missing `ModalVoice.h`,
with the transitions implemented in `ModalVoice.cpp`). -/
inductive VState where
  | inactive
  | attack
  | sustain
  | release
deriving DecidableEq

/-- Audio synthesis state (`audio_synth_t`, `audio_synth.c`).  The `uint32`
phase accumulators advance each sample by a transcendental-valued increment,
so the embedding records the phase history symbolically: a list of
(frequency, samples advanced at that frequency) segments, which determines the
accumulator value. -/
structure AudioSynth where
  sampleRate : ℚ
  masterGain : ℚ
  muted : Bool
  modeGains : Fin 4 → ℚ
  ampSmooth : Fin 4 → ℚ
  phaseHist : Fin 4 → List (FreqSym × ℕ)
  initialized : Bool
deriving DecidableEq

/-- `audio_synth_init` (`audio_synth.c`). -/
def audioSynthInit (sampleRate : ℚ) : AudioSynth where
  sampleRate := sampleRate
  masterGain := 1
  muted := false
  modeGains := fun _ => 1
  ampSmooth := fun _ => 0
  phaseHist := fun _ => []
  initialized := true

/-- `audio_synth_reset_phase` (`audio_synth.c`): clears phase accumulators and
amplitude smoothing. -/
def audioSynthResetPhase (s : AudioSynth) : AudioSynth :=
  { s with phaseHist := fun _ => [], ampSmooth := fun _ => 0 }

/-- One step of the single-pole amplitude smoothing of `audio_synth_render`:
`s += SMOOTH_ALPHA * (target - s)` with `SMOOTH_ALPHA = 0.12`. -/
def smoothStep (target s : ℚ) : ℚ := s + (12 / 100) * (target - s)

/-- `n` iterations of the per-sample smoothing update. -/
def smoothIter (target s : ℚ) : ℕ → ℚ
  | 0 => s
  | n + 1 => smoothIter target (smoothStep target s) n

/-- State effect of `audio_synth_render` (`audio_synth.c`) over `n` frames:
for each active mode the amplitude smoother runs `n` per-sample steps toward
`|a_k|·weight`, and the phase accumulator advances `n` samples at the mode's
current frequency (recorded as a history segment; a zero-length segment is not
recorded since it leaves the accumulator value unchanged).  The produced
samples are a pure function of this pre-call state and are not re-computed
here. -/
def audioSynthRenderState (s : AudioSynth) (node : ModalNode) (n : ℕ) : AudioSynth :=
  if !s.initialized || s.muted then s
  else
    { s with
      ampSmooth := fun k =>
        let m := node.modes k
        if m.params.active then smoothIter (m.amp * m.params.weight) (s.ampSmooth k) n
        else s.ampSmooth k
      phaseHist := fun k =>
        let m := node.modes k
        if m.params.active ∧ 0 < n then (m.params.freq, n) :: s.phaseHist k
        else s.phaseHist k }

/-- One voice (`ModalVoice`, fields of the missing `ModalVoice.h`, behaviour
from `ModalVoice.cpp`). -/
structure ModalVoice where
  voiceId : ℕ
  state : VState
  midiNote : ℕ
  velocity : ℚ
  pitchBend : ℚ
  age : ℕ
  samplesSinceUpdate : ℕ
  samplesPerUpdate : ℕ
  sampleRate : ℚ
  node : ModalNode
  synth : AudioSynth
deriving DecidableEq

/-- `ModalVoice` constructor: inactive voice, default note 60, node initialised
with resonator personality; the audio synth is set up later by `ModalVoice::initialize`. -/
def ModalVoice.new (voiceId : ℕ) : ModalVoice where
  voiceId := voiceId
  state := .inactive
  midiNote := 60
  velocity := 0
  pitchBend := 0
  age := 0
  samplesSinceUpdate := 0
  samplesPerUpdate := 0
  sampleRate := 48000
  node := modalNodeInit voiceId .resonator
  synth :=
    { sampleRate := 0, masterGain := 0, muted := false, modeGains := fun _ => 0
      ampSmooth := fun _ => 0, phaseHist := fun _ => [], initialized := false }

/-- `ModalVoice::isActive` (declared in the missing `ModalVoice.h`).
Modelled from the spec: a voice is active exactly when its state-machine state
is not Inactive. -/
def ModalVoice.isActive (v : ModalVoice) : Bool := v.state ≠ VState.inactive

/-- `ModalVoice::getAge` (declared in the missing `ModalVoice.h`). -/
def ModalVoice.getAge (v : ModalVoice) : ℕ := v.age

/-- `ModalVoice::getAmplitude`. -/
def ModalVoice.getAmplitude (v : ModalVoice) : ℚ := modalNodeGetAmplitude v.node

/-- `ModalVoice::getBaseFrequency`: `midi_to_freq(midi_note_)` scaled by the
pitch-bend factor `2^(pitch_bend·2/12)` — exactly the denotation of the
symbolic value `⟨midiNote, pitchBend, 1⟩`. -/
def ModalVoice.getBaseFrequency (v : ModalVoice) : FreqSym :=
  ⟨v.midiNote, v.pitchBend, 1⟩

/-- `ModalVoice::setMode`: rejects mode indices `≥ MAX_MODES`, otherwise
configures the mode (the `freq_to_omega` conversion is the identity on the
symbolic frequency). -/
def ModalVoice.setMode (v : ModalVoice) (idx : ℕ) (freq : FreqSym)
    (gamma weight : ℚ) : ModalVoice :=
  if h : idx < 4 then { v with node := modalNodeSetMode v.node ⟨idx, h⟩ freq gamma weight }
  else v

/-- `ModalVoice::setPersonality`. -/
def ModalVoice.setPersonality (v : ModalVoice) (p : Personality) : ModalVoice :=
  { v with node := { v.node with personality := p } }

/-- `ModalVoice::setGlobalDamping`. -/
def ModalVoice.setGlobalDamping (v : ModalVoice) (d : ℚ) : ModalVoice :=
  { v with node := { v.node with globalDamping := d } }

/-- `ModalVoice::reset`: resets the modal node, deactivates the voice and
clears age and the control-update sample counter. -/
def ModalVoice.reset (v : ModalVoice) : ModalVoice :=
  { v with node := modalNodeReset v.node, state := .inactive, age := 0
           samplesSinceUpdate := 0 }

/-- `ModalVoice::updateFrequencies`: recomputes the four mode frequencies from
the current note and pitch bend (multipliers 1, 1.01, 2, 3), keeping each
mode's current damping and weight. -/
def ModalVoice.updateFrequencies (v : ModalVoice) : ModalVoice :=
  let base := v.getBaseFrequency
  let v := v.setMode 0 (base.scale 1) (v.node.modes 0).params.gamma (v.node.modes 0).params.weight
  let v := v.setMode 1 (base.scale (101 / 100)) (v.node.modes 1).params.gamma (v.node.modes 1).params.weight
  let v := v.setMode 2 (base.scale 2) (v.node.modes 2).params.gamma (v.node.modes 2).params.weight
  v.setMode 3 (base.scale 3) (v.node.modes 3).params.gamma (v.node.modes 3).params.weight

/-- `ModalVoice::initialize`: stores the sample rate, derives the
control-update period `sample_rate / CONTROL_RATE_HZ`, initialises the audio
synth, sets the default harmonically related modes from note 60, and starts
the node. -/
def ModalVoice.initVoice (v : ModalVoice) (sampleRate : ℚ) : ModalVoice :=
  let v := { v with sampleRate := sampleRate
                    samplesPerUpdate := (sampleRate / 500).floor.toNat
                    synth := audioSynthInit sampleRate }
  let base : FreqSym := ⟨v.midiNote, 0, 1⟩
  let v := v.setMode 0 (base.scale 1) (1 / 2) 1
  let v := v.setMode 1 (base.scale (101 / 100)) (3 / 5) (7 / 10)
  let v := v.setMode 2 (base.scale 2) (4 / 5) (1 / 2)
  let v := v.setMode 3 (base.scale 3) 1 (3 / 10)
  { v with node := modalNodeStart v.node }

/-- `ModalVoice::noteOn`: stores note and velocity, enters Attack with age 0,
retunes the modes, resets the synth phase, and applies a poke of strength
`velocity` with equal weight 1 on every mode. -/
def ModalVoice.noteOn (v : ModalVoice) (note : ℕ) (vel : ℚ) : ModalVoice :=
  let v := { v with midiNote := note, velocity := vel, state := VState.attack, age := 0 }
  let v := v.updateFrequencies
  let v := { v with synth := audioSynthResetPhase v.synth }
  { v with node := modalNodeApplyPoke v.node vel (fun _ => 1) }

/-- `ModalVoice::noteOff`: an inactive voice is untouched, any other state
moves to Release. -/
def ModalVoice.noteOff (v : ModalVoice) : ModalVoice :=
  if v.state = VState.inactive then v else { v with state := VState.release }

/-- `ModalVoice::setPitchBend` (the `bend_range` argument is unused by the
source). -/
def ModalVoice.setPitchBend (v : ModalVoice) (bend : ℚ) : ModalVoice :=
  ({ v with pitchBend := bend } : ModalVoice).updateFrequencies

/-- `ModalVoice::updateState`: Attack moves to Sustain for self-oscillators;
Release force-resets the voice once the amplitude falls below the silence
threshold `0.001`. -/
def ModalVoice.updateState (v : ModalVoice) : ModalVoice :=
  match v.state with
  | .inactive => v
  | .attack =>
      if v.node.personality = Personality.selfOscillator
      then { v with state := VState.sustain } else v
  | .sustain => v
  | .release => if v.getAmplitude < 1 / 1000 then v.reset else v

/-- `ModalVoice::updateModal`: inactive voices are untouched; otherwise one
modal step, the state-machine update, and an age increment. -/
def ModalVoice.updateModal (v : ModalVoice) : ModalVoice :=
  if v.state = VState.inactive then v
  else
    let v := { v with node := modalNodeStep v.node }
    let v := v.updateState
    { v with age := v.age + 1 }

/-- Reduction of a value to the `uint32` range. -/
def u32 (a : ℕ) : ℕ := a % 2 ^ 32

/-- `updateModal` either leaves the control-update sample counter unchanged,
or (when the Release branch force-resets the voice) zeroes it and deactivates
the voice.  Needed for termination of the render loop. -/
theorem updateModal_samples (v : ModalVoice) :
    (v.updateModal.samplesSinceUpdate = v.samplesSinceUpdate) ∨
      (v.updateModal.samplesSinceUpdate = 0 ∧ v.updateModal.state = VState.inactive) := by
  unfold ModalVoice.updateModal ModalVoice.updateState ModalVoice.reset
  rcases v with ⟨_, st, _⟩
  cases st <;> simp <;> split <;> simp

/-- A voice that is inactive is untouched by `updateModal`. -/
theorem updateModal_inactive (v : ModalVoice) (h : v.state = VState.inactive) :
    v.updateModal = v := by
  unfold ModalVoice.updateModal
  simp [h]

/-- Termination measure for the render loop: the wrap-around in the `uint32`
counter subtraction can occur at most once (when the voice dies mid-loop), so
pending iterations are bounded by the counter plus one extra wrap. -/
def renderMeasure (v : ModalVoice) : ℕ :=
  v.samplesSinceUpdate + (if v.state = VState.inactive then 0 else 2 ^ 32)

/-- The control-update loop at the top of `ModalVoice::renderAudio`:
`while (samples_since_update_ >= samples_per_update_) { updateModal();
samples_since_update_ -= samples_per_update_; }` with `uint32` wrap-around
subtraction.  (With `samples_per_update_ == 0` — only possible before
`initialize()` — the C loop never terminates; the embedding exits instead.) -/
def ModalVoice.renderLoop (v : ModalVoice) : ModalVoice :=
  if h : v.samplesSinceUpdate ≥ v.samplesPerUpdate ∧ 0 < u32 v.samplesPerUpdate then
    let w := v.updateModal
    ModalVoice.renderLoop
      { w with samplesSinceUpdate := u32 (w.samplesSinceUpdate + 2 ^ 32 - u32 v.samplesPerUpdate) }
  else v
termination_by renderMeasure v
decreasing_by
  · obtain ⟨hge, hpos⟩ := h
    rcases updateModal_samples v with hsame | ⟨hzero, hinact⟩
    · by_cases hv : v.state = VState.inactive
      · have hvv := updateModal_inactive v hv
        simp only [renderMeasure, u32, hvv, hv, if_pos] at *
        omega
      · by_cases hw : v.updateModal.state = VState.inactive
        · simp only [renderMeasure, u32, hsame, if_pos hw, if_neg hv] at *
          omega
        · simp only [renderMeasure, u32, hsame, if_neg hw, if_neg hv] at *
          omega
    · have hv : ¬ v.state = VState.inactive := by
        intro hv
        have hvv := updateModal_inactive v hv
        rw [hvv] at hzero
        simp only [u32] at hpos
        omega
      simp only [renderMeasure, u32, hzero, if_pos hinact, if_neg hv] at *
      omega

/-- State effect of `ModalVoice::renderAudio` over `n` frames: inactive voices
write silence and are untouched; otherwise the sample counter accumulates, the
control-update loop runs, and the audio synth advances `n` frames.  The output
samples are a pure function of the state recorded in the render trace and are
not re-computed here. -/
def ModalVoice.renderAudio (v : ModalVoice) (n : ℕ) : ModalVoice :=
  if v.state = VState.inactive then v
  else
    let v := { v with samplesSinceUpdate := u32 (v.samplesSinceUpdate + n) }
    let v := v.renderLoop
    { v with synth := audioSynthRenderState v.synth v.node n }

/-- Per-mode parameter cache of the allocator (`VoiceAllocator::ModeParams`). -/
structure AllocModeParams where
  freqMultiplier : ℚ
  damping : ℚ
  weight : ℚ
deriving DecidableEq

/-- Voice allocator (`VoiceAllocator.h` / `VoiceAllocator.cpp`).  The voice
pool is a list of length `max_polyphony_`; `note_to_voice_` keeps the `int8_t`
sentinel `-1`.  The pre-allocated temp buffers hold no observable state and
are represented only by `maxBufferSize`. -/
structure VoiceAllocator where
  voices : List ModalVoice
  activeNodeCount : ℕ
  noteToVoice : ℕ → ℤ
  pitchBend : ℚ
  personality : Personality
  modeParams : Fin 4 → AllocModeParams
  pokeStrength : ℚ
  pokeDurationMs : ℚ
  maxBufferSize : ℕ
  sampleRate : ℚ
  initialized : Bool

/-- `VoiceAllocator` constructor: a pool of `maxPolyphony` fresh voices, the
full pool active, no note mapped, default mode parameters. -/
def VoiceAllocator.new (maxPolyphony : ℕ) : VoiceAllocator where
  voices := (List.range maxPolyphony).map ModalVoice.new
  activeNodeCount := maxPolyphony
  noteToVoice := fun _ => -1
  pitchBend := 0
  personality := .resonator
  modeParams := ![⟨1, 1, 1⟩, ⟨2, 6 / 5, 4 / 5⟩, ⟨3, 3 / 2, 3 / 5⟩, ⟨9 / 2, 2, 2 / 5⟩]
  pokeStrength := 1 / 2
  pokeDurationMs := 10
  maxBufferSize := 0
  sampleRate := 48000
  initialized := false

/-- The voice at pool index `i` (out-of-range reads, which the source cannot
perform, return a fresh voice). -/
def VoiceAllocator.voiceAt (A : VoiceAllocator) (i : ℕ) : ModalVoice :=
  A.voices.getD i (ModalVoice.new 0)

/-- `VoiceAllocator::initialize`. -/
def VoiceAllocator.initAllocator (A : VoiceAllocator) (sampleRate : ℚ) : VoiceAllocator :=
  { A with sampleRate := sampleRate
           voices := A.voices.map (ModalVoice.initVoice · sampleRate)
           maxBufferSize := 2048
           initialized := true }

/-- The common note-trigger sequence of `VoiceAllocator::noteOn`: trigger the
voice, apply pitch bend and personality, then apply the cached mode parameters
from the voice's (post-trigger) base frequency. -/
def VoiceAllocator.triggerVoice (A : VoiceAllocator) (v : ModalVoice)
    (note : ℕ) (vel : ℚ) : ModalVoice :=
  let v := ((v.noteOn note vel).setPitchBend A.pitchBend).setPersonality A.personality
  let base := v.getBaseFrequency
  let v := v.setMode 0 (base.scale (A.modeParams 0).freqMultiplier)
    (A.modeParams 0).damping (A.modeParams 0).weight
  let v := v.setMode 1 (base.scale (A.modeParams 1).freqMultiplier)
    (A.modeParams 1).damping (A.modeParams 1).weight
  let v := v.setMode 2 (base.scale (A.modeParams 2).freqMultiplier)
    (A.modeParams 2).damping (A.modeParams 2).weight
  v.setMode 3 (base.scale (A.modeParams 3).freqMultiplier)
    (A.modeParams 3).damping (A.modeParams 3).weight

/-- `VoiceAllocator::findFreeVoice` (as a pool index): the first inactive
voice within the active node count limit. -/
def VoiceAllocator.findFreeIdx (A : VoiceAllocator) : Option ℕ :=
  (List.range A.activeNodeCount).find? fun i => !(A.voiceAt i).isActive

/-- One iteration of the scan in `VoiceAllocator::stealOldestVoice`: an
active voice whose age strictly exceeds the running maximum becomes the new
candidate. -/
def VoiceAllocator.stealStep (A : VoiceAllocator) (acc : Option ℕ × ℕ)
    (i : ℕ) : Option ℕ × ℕ :=
  let v := A.voiceAt i
  if v.isActive ∧ acc.2 < v.age then (some i, v.age) else acc

/-- The scan of `VoiceAllocator::stealOldestVoice`: fold over the active node
range keeping the first index whose age strictly exceeds the running maximum,
which starts at 0. -/
def VoiceAllocator.stealScan (A : VoiceAllocator) : Option ℕ × ℕ :=
  (List.range A.activeNodeCount).foldl A.stealStep (none, 0)

/-- `VoiceAllocator::stealOldestVoice`: force-reset the scan's winner, if any,
and report its index. -/
def VoiceAllocator.stealOldestVoice (A : VoiceAllocator) : VoiceAllocator × Option ℕ :=
  match A.stealScan.1 with
  | some i => ({ A with voices := A.voices.set i (A.voiceAt i).reset }, some i)
  | none => (A, none)

/-- `VoiceAllocator::noteOn`: re-trigger the mapped voice if the note is
already mapped; otherwise allocate a free voice or steal the oldest, trigger
it, and record the mapping.  Returns the chosen pool index (`nullptr` of the
source becomes `none`). -/
def VoiceAllocator.noteOn (A : VoiceAllocator) (note : ℕ) (vel : ℚ) :
    VoiceAllocator × Option ℕ :=
  if A.initialized = false ∨ 127 < note then (A, none)
  else if 0 ≤ A.noteToVoice note then
    let i := (A.noteToVoice note).toNat
    ({ A with voices := A.voices.set i (A.triggerVoice (A.voiceAt i) note vel) }, some i)
  else
    match A.findFreeIdx with
    | some i =>
        ({ A with
            voices := A.voices.set i (A.triggerVoice (A.voiceAt i) note vel)
            noteToVoice := Function.update A.noteToVoice note (Int.ofNat i) }, some i)
    | none =>
        match A.stealOldestVoice with
        | (A1, some i) =>
            ({ A1 with
                voices := A1.voices.set i (A1.triggerVoice (A1.voiceAt i) note vel)
                noteToVoice := Function.update A1.noteToVoice note (Int.ofNat i) }, some i)
        | (A1, none) => (A1, none)

/-- `VoiceAllocator::noteOff`: release the mapped voice (if the mapping is a
valid pool index) and clear the mapping. -/
def VoiceAllocator.noteOff (A : VoiceAllocator) (note : ℕ) : VoiceAllocator :=
  if 127 < note then A
  else
    let idx := A.noteToVoice note
    if 0 ≤ idx ∧ idx < (A.voices.length : ℤ) then
      { A with voices := A.voices.set idx.toNat (A.voiceAt idx.toNat).noteOff
               noteToVoice := Function.update A.noteToVoice note (-1) }
    else A

/-- `VoiceAllocator::allNotesOff`: release every active voice and clear the
entire note mapping. -/
def VoiceAllocator.allNotesOff (A : VoiceAllocator) : VoiceAllocator :=
  { A with voices := A.voices.map fun v => if v.isActive then v.noteOff else v
           noteToVoice := fun _ => -1 }

/-- `VoiceAllocator::updateVoices`: control-rate update of all active voices. -/
def VoiceAllocator.updateVoices (A : VoiceAllocator) : VoiceAllocator :=
  if A.initialized = false then A
  else { A with voices := A.voices.map fun v => if v.isActive then v.updateModal else v }

/-- Note routing strategies (`NoteRoutingMode`, `NodeManager.h`). -/
inductive NoteRoutingMode where
  | midiChannel
  | allNodes
deriving DecidableEq

/-- Multi-excitation modes (`MultiExciteMode`, `NodeManager.h`). -/
inductive MultiExciteMode where
  | reTrigger
  | accumulate
deriving DecidableEq

/-- A node character (`NodeCharacter`, `NodeCharacter.h`).  The `name` and
`description` metadata strings are not represented (nothing reads them). -/
structure NodeCharacter where
  modeFreqMult : Fin 4 → ℚ
  modeDamping : Fin 4 → ℚ
  modeWeight : Fin 4 → ℚ
  modeShape : Fin 4 → WaveShape
  personality : Personality
  pokeStrength : ℚ
  pokeDurationMs : ℚ
  couplingResponseGain : ℚ
deriving DecidableEq

/-- `validateCharacter` (`NodeCharacter.cpp`).  Each early-return test
`x < lo || x > hi → false` is rewritten as the equivalent bounds check
`lo ≤ x ∧ x ≤ hi`. -/
def validateCharacter (c : NodeCharacter) : Bool :=
  decide ((∀ i : Fin 4,
      (1 / 10 ≤ c.modeFreqMult i ∧ c.modeFreqMult i ≤ 20) ∧
      (1 / 100 ≤ c.modeDamping i ∧ c.modeDamping i ≤ 10) ∧
      (0 ≤ c.modeWeight i ∧ c.modeWeight i ≤ 1)) ∧
    (0 ≤ c.pokeStrength ∧ c.pokeStrength ≤ 1) ∧
    (1 ≤ c.pokeDurationMs ∧ c.pokeDurationMs ≤ 50) ∧
    (1 / 10 ≤ c.couplingResponseGain ∧ c.couplingResponseGain ≤ 2))

/-- `CHARACTER_VIBRANT_BASS` (`NodeCharacter.cpp`), library character 0. -/
def characterVibrantBass : NodeCharacter where
  modeFreqMult := ![1, 2, 3, 5]
  modeDamping := ![3 / 10, 1 / 2, 4 / 5, 6 / 5]
  modeWeight := ![1, 4 / 5, 3 / 5, 2 / 5]
  modeShape := ![.sine, .sine, .sine, .sine]
  personality := .resonator
  pokeStrength := 7 / 10
  pokeDurationMs := 15
  couplingResponseGain := 4 / 5

/-- The fixed 5-node network manager (`NodeManager.h` / `NodeManager.cpp`).
`NUM_NETWORK_NODES = 5`; `note_to_node_` keeps the `uint8_t 0xFF` sentinel as
255.  The temp render buffers carry no observable state and are represented
only by `maxBufferSize`. -/
structure NodeManager where
  nodes : Fin 5 → ModalVoice
  nodeCharacterIds : Fin 5 → ℕ
  currentCharacters : Fin 5 → NodeCharacter
  routingMode : NoteRoutingMode
  multiExciteMode : MultiExciteMode
  activeNodeCount : ℕ
  noteToNode : ℕ → ℕ
  noteToChannel : ℕ → ℕ
  pitchBend : ℚ
  sampleRate : ℚ
  maxBufferSize : ℕ
  initialized : Bool

/-- The node at index `i : ℕ` (in the source every such access is
bounds-guarded; out-of-range reads return a fresh voice). -/
def NodeManager.nodeAt (nm : NodeManager) (i : ℕ) : ModalVoice :=
  if h : i < 5 then nm.nodes ⟨i, h⟩ else ModalVoice.new 0

/-- `NodeManager::applyCharacterToNode`: a no-op before initialisation,
otherwise applies personality and per-mode wave shapes and stores the
character data. -/
def NodeManager.applyCharacterToNode (nm : NodeManager) (idx : Fin 5)
    (c : NodeCharacter) : NodeManager :=
  if nm.initialized = false then nm
  else
    let v := (nm.nodes idx).setPersonality c.personality
    let v := { v with node := { v.node with modes := fun k =>
        let m := v.node.modes k
        { m with params := { m.params with shape := c.modeShape k } } } }
    { nm with nodes := Function.update nm.nodes idx v
              currentCharacters := Function.update nm.currentCharacters idx c }

/-- `NodeManager::setNodeCharacterCustom`: rejects an out-of-range node index
or an invalid character without any mutation; otherwise stores the custom
character (ID `0xFF`) and applies it to the node. -/
def NodeManager.setNodeCharacterCustom (nm : NodeManager) (nodeIdx : ℕ)
    (c : NodeCharacter) : NodeManager :=
  if h : nodeIdx < 5 then
    if validateCharacter c then
      let idx : Fin 5 := ⟨nodeIdx, h⟩
      let nm := { nm with nodeCharacterIds := Function.update nm.nodeCharacterIds idx 255
                          currentCharacters := Function.update nm.currentCharacters idx c }
      nm.applyCharacterToNode idx c
    else nm
  else nm

/-- `NodeManager::allNotesOff`: release every active node and clear the whole
note-to-node map (the note-to-channel map is left alone, as in the source). -/
def NodeManager.allNotesOff (nm : NodeManager) : NodeManager :=
  { nm with
    nodes := fun i => if (nm.nodes i).isActive then (nm.nodes i).noteOff else nm.nodes i
    noteToNode := fun _ => 255 }

/-- `NodeManager::setNodeCount`: clamp to `[1, 5]`, stop all notes first, then
force-reset every node at or beyond the new count before storing it. -/
def NodeManager.setNodeCount (nm : NodeManager) (count : ℕ) : NodeManager :=
  let c := max 1 (min count 5)
  let nm := nm.allNotesOff
  let nm := { nm with nodes := fun i => if c ≤ i.val then (nm.nodes i).reset else nm.nodes i }
  { nm with activeNodeCount := c }

/-- `NodeManager::setGlobalDamping`. -/
def NodeManager.setGlobalDamping (nm : NodeManager) (damping : ℚ) : NodeManager :=
  if nm.initialized = false then nm
  else { nm with nodes := fun i => (nm.nodes i).setGlobalDamping damping }

/-- `NodeManager::routeNoteToNodes` (as the list of target node indices):
channel routing targets `channel mod active count`; all-nodes routing targets
every node below the active count.  The note argument of the source is unused
by both strategies. -/
def NodeManager.routeNoteToNodes (nm : NodeManager) (midiChannel : ℕ) : List ℕ :=
  match nm.routingMode with
  | .midiChannel => [midiChannel % nm.activeNodeCount]
  | .allNodes => List.range nm.activeNodeCount

/-- `NodeManager::exciteNode`: trigger the node with the character-scaled
velocity, apply the manager's pitch bend, retune the four modes from the
post-trigger base frequency using the character's multipliers, and re-apply
the character's personality. -/
def NodeManager.exciteNode (nm : NodeManager) (nodeIdx : ℕ) (note : ℕ)
    (vel : ℚ) : NodeManager :=
  if h : nodeIdx < 5 then
    let idx : Fin 5 := ⟨nodeIdx, h⟩
    let c := nm.currentCharacters idx
    let v := (nm.nodes idx).noteOn note (vel * c.pokeStrength)
    let v := v.setPitchBend nm.pitchBend
    let base := v.getBaseFrequency
    let v := v.setMode 0 (base.scale (c.modeFreqMult 0)) (c.modeDamping 0) (c.modeWeight 0)
    let v := v.setMode 1 (base.scale (c.modeFreqMult 1)) (c.modeDamping 1) (c.modeWeight 1)
    let v := v.setMode 2 (base.scale (c.modeFreqMult 2)) (c.modeDamping 2) (c.modeWeight 2)
    let v := v.setMode 3 (base.scale (c.modeFreqMult 3)) (c.modeDamping 3) (c.modeWeight 3)
    let v := v.setPersonality c.personality
    { nm with nodes := Function.update nm.nodes idx v }
  else nm

/-- One iteration of the excitation loop in `NodeManager::noteOn`: in
ReTrigger mode an already-active target node is reset first, then the node is
excited. -/
def NodeManager.noteOnStep (note : ℕ) (vel : ℚ) (nm : NodeManager) (i : ℕ) :
    NodeManager :=
  let nm :=
    if nm.multiExciteMode = MultiExciteMode.reTrigger ∧ (nm.nodeAt i).isActive then
      (if h : i < 5 then
        { nm with nodes := Function.update nm.nodes ⟨i, h⟩ (nm.nodes ⟨i, h⟩).reset }
       else nm)
    else nm
  nm.exciteNode i note vel

/-- `NodeManager::noteOn`: route the note, excite each target node according
to the multi-excite mode, and record the first target in the note maps. -/
def NodeManager.noteOn (nm : NodeManager) (note : ℕ) (vel : ℚ) (ch : ℕ) :
    NodeManager :=
  if nm.initialized = false ∨ 127 < note then nm
  else
    let targets := nm.routeNoteToNodes ch
    let nm1 := targets.foldl (NodeManager.noteOnStep note vel) nm
    match targets with
    | [] => nm1
    | t :: _ =>
        { nm1 with noteToNode := Function.update nm1.noteToNode note t
                   noteToChannel := Function.update nm1.noteToChannel note ch }

/-- `NodeManager::noteOff`: release the single node recorded for this note
(if the map holds a valid index) and clear the map entry. -/
def NodeManager.noteOff (nm : NodeManager) (note : ℕ) : NodeManager :=
  if 127 < note then nm
  else
    let idx := nm.noteToNode note
    if h : idx < 5 then
      { nm with nodes := Function.update nm.nodes ⟨idx, h⟩ (nm.nodes ⟨idx, h⟩).noteOff
                noteToNode := Function.update nm.noteToNode note 255 }
    else nm

/-- `NodeManager::setPitchBend`: store the bend and apply it to every active
node. -/
def NodeManager.setPitchBend (nm : NodeManager) (bend : ℚ) : NodeManager :=
  { nm with pitchBend := bend
            nodes := fun i =>
              if (nm.nodes i).isActive then (nm.nodes i).setPitchBend bend else nm.nodes i }

/-- `NodeManager::updateNodes`: control-rate update of the active nodes below
the active node count. -/
def NodeManager.updateNodes (nm : NodeManager) : NodeManager :=
  if nm.initialized = false then nm
  else
    { nm with nodes := fun i =>
        if i.val < nm.activeNodeCount ∧ (nm.nodes i).isActive
        then (nm.nodes i).updateModal else nm.nodes i }

/-- State effect of `NodeManager::renderAudio` over `numFrames` frames:
uninitialised managers write silence; otherwise the frame count is clamped to
the pre-allocated buffer size and every active node below the active count
renders (and mixes) that many frames.  The mixed samples are a pure function
of this pre-call state and are not re-computed here. -/
def NodeManager.renderAudio (nm : NodeManager) (numFrames : ℕ) : NodeManager :=
  if nm.initialized = false then nm
  else
    let n := min numFrames nm.maxBufferSize
    { nm with nodes := fun i =>
        if i.val < nm.activeNodeCount ∧ (nm.nodes i).isActive
        then (nm.nodes i).renderAudio n else nm.nodes i }

/-- Coupling algorithm selection (`ModalVoice::CouplingMode`, declared in the
missing `ModalVoice.h`; both values are used by `SynthEngine`). -/
inductive CouplingMode where
  | complexDiffusion
  | magnitudePressure
deriving DecidableEq

/-- `ModalVoice::applyCoupling` (`ModalVoice.cpp`): add each coupling input,
scaled by the node's coupling strength and `CONTROL_DT`, to the corresponding
active mode's amplitude. -/
def ModalVoice.applyCoupling (v : ModalVoice) (inputs : Fin 4 → ℚ) : ModalVoice :=
  { v with node := { v.node with modes := fun k =>
      let m := v.node.modes k
      if m.params.active
      then { m with amp := m.amp + v.node.couplingStrength * inputs k * controlDT }
      else m } }

/-- `ModalVoice::applyCouplingMode0` (`ModalVoice.cpp`): add the complex
mode-0 coupling term, scaled by `CONTROL_DT`, if mode 0 is active. -/
def ModalVoice.applyCouplingMode0 (v : ModalVoice) (c0 : ℚ) : ModalVoice :=
  if (v.node.modes 0).params.active then
    let m := v.node.modes 0
    let m1 := { m with amp := m.amp + c0 * controlDT }
    { v with node := { v.node with modes := Function.update v.node.modes 0 m1 } }
  else v

/-- Modelled from the spec: `TopologyEngine::updateCoupling` (implementation
missing from the snapshot) — the magnitude/pressure algorithm feeds each node
the always-positive, absolute-value-based sum of its neighbours' mode-0
magnitudes; with the topology structure missing, every other node is taken as
a neighbour.  Applied through the source's `ModalVoice::applyCoupling`. -/
def topologyUpdateCoupling (nm : NodeManager) : NodeManager :=
  { nm with nodes := fun i =>
      (nm.nodes i).applyCoupling fun k =>
        if k = 0 then
          Finset.univ.sum fun j : Fin 5 =>
            if j ≠ i then |((nm.nodes j).node.modes 0).amp| else 0
        else 0 }

/-- Modelled from the spec: `TopologyEngine::updateCouplingComplex`
(implementation missing from the snapshot) — the phase-preserving diffusion
algorithm feeds each node the sum of its neighbours' mode-0 states relative to
its own; every other node is taken as a neighbour.  Applied through the
source's `ModalVoice::applyCouplingMode0`. -/
def topologyUpdateCouplingComplex (nm : NodeManager) : NodeManager :=
  { nm with nodes := fun i =>
      let c0 : ℚ :=
        Finset.univ.sum fun j : Fin 5 =>
          if j ≠ i then ((nm.nodes j).node.modes 0).amp - ((nm.nodes i).node.modes 0).amp
          else 0
      (nm.nodes i).applyCouplingMode0 c0 }

/-- Event payloads (`SynthEvent`'s union, `SynthEngine.h`), as a tagged sum;
the `type` tag is the constructor. -/
inductive SynthEventData where
  | noteOn (note : ℕ) (velocity : ℚ) (channel : ℕ)
  | noteOff (note : ℕ)
  | cc (num : ℕ) (value : ℚ)
  | pitchBend (value : ℚ)
  | parameter (paramId : ℕ) (value : ℚ)
deriving DecidableEq

/-- A timestamped event (`SynthEvent`, `SynthEngine.h`); the sample offset is
a signed 32-bit value in the source. -/
structure SynthEvent where
  sampleOffset : ℤ
  data : SynthEventData
deriving DecidableEq

/-- `EventQueue::MAX_EVENTS`. -/
def eventQueueMaxEvents : ℕ := 512

/-- The fixed-capacity event queue (`EventQueue`, `SynthEngine.h`), as the
list of its first `count_` stored events. -/
structure EventQueue where
  events : List SynthEvent
deriving DecidableEq

/-- `EventQueue::count`. -/
def EventQueue.count (q : EventQueue) : ℕ := q.events.length

/-- `EventQueue::push`: append if capacity remains and report `true`,
otherwise leave the queue alone and report `false`. -/
def EventQueue.push (q : EventQueue) (e : SynthEvent) : EventQueue × Bool :=
  if eventQueueMaxEvents ≤ q.count then (q, false)
  else ({ events := q.events ++ [e] }, true)

/-- `EventQueue::clear`. -/
def EventQueue.clear (_ : EventQueue) : EventQueue := { events := [] }

/-- Push a whole list of events in order (a producer's sequence of
`push` calls), keeping the success flag of each push. -/
def EventQueue.pushAll (q : EventQueue) (l : List SynthEvent) :
    EventQueue × List Bool :=
  l.foldl (fun acc e =>
    let (q1, ok) := acc.1.push e
    (q1, acc.2 ++ [ok])) (q, [])

/-- The synthesis engine (`SynthEngine.h` / `SynthEngine.cpp`).  The
`TopologyEngine` object and the pre-allocated node-pointer array carry no
state observable by the verified operations; the parameter caches are all
kept. -/
structure SynthEngine where
  nodeManager : NodeManager
  sampleRate : ℚ
  maxFrames : ℕ
  channels : ℕ
  initialized : Bool
  controlRateCounter : ℕ
  bodySize : ℚ
  material : ℚ
  excite : ℚ
  morph : ℚ
  mix : ℚ
  masterGain : ℚ
  couplingStrength : ℚ
  topologyType : ℕ
  couplingMode : CouplingMode
  nodeCharacterParams : Fin 5 → ℕ
  noteRouting : ℕ
  multiExcite : ℕ
  modeFrequencyCache : Fin 4 → ℚ
  modeDampingCache : Fin 4 → ℚ
  modeWeightCache : Fin 4 → ℚ
  pokeStrengthCache : ℚ
  pokeDurationCache : ℚ
  personalityCache : ℚ

/-- `CONTROL_RATE_SAMPLES = 240` (`SynthEngine.h`). -/
def controlRateSamples : ℕ := 240

/-- `SynthEngine::setParameter`: stores the five ModalEffect parameters,
ignores unknown ids. -/
def SynthEngine.setParameter (s : SynthEngine) (paramId : ℕ) (value : ℚ) :
    SynthEngine :=
  match paramId with
  | 0 => { s with bodySize := value }
  | 1 => { s with material := value }
  | 2 => { s with excite := value }
  | 3 => { s with morph := value }
  | 4 => { s with mix := value }
  | _ => s

/-- `SynthEngine::getParameter`: returns the stored value of the five
ModalEffect parameters and 0 for unknown ids. -/
def SynthEngine.getParameter (s : SynthEngine) (paramId : ℕ) : ℚ :=
  match paramId with
  | 0 => s.bodySize
  | 1 => s.material
  | 2 => s.excite
  | 3 => s.morph
  | 4 => s.mix
  | _ => 0

/-- `SynthEngine::reset`: a no-op before `prepare`; otherwise releases all
nodes via `allNotesOff` and zeroes the control-rate counter. -/
def SynthEngine.reset (s : SynthEngine) : SynthEngine :=
  if s.initialized = false then s
  else { s with nodeManager := s.nodeManager.allNotesOff, controlRateCounter := 0 }

/-- `SynthEngine::updateControlRate`: control-rate node update followed by the
coupling update selected by the coupling mode (over all five nodes). -/
def SynthEngine.updateControlRate (s : SynthEngine) : SynthEngine :=
  let nm := s.nodeManager.updateNodes
  let nm :=
    match s.couplingMode with
    | .complexDiffusion => topologyUpdateCouplingComplex nm
    | .magnitudePressure => topologyUpdateCoupling nm
  { s with nodeManager := nm }

/-- One observable step of a render call.  `audio start len nm` records that
the slice `[start, start+len)` of the output buffer is produced from node
manager state `nm` (the samples are a pure function of `nm` and `len`);
`control` records a firing of the fixed-period control update; `event e`
records the application of `e`. -/
inductive RenderOp where
  | control
  | audio (start len : ℕ) (nm : NodeManager)
  | event (e : SynthEvent)

/-- `SynthEngine::renderSlice`: accumulate the control-rate counter, fire the
control update when it reaches `CONTROL_RATE_SAMPLES`, then render `n` frames
of node audio into the buffer at `start`. -/
def SynthEngine.renderSlice (s : SynthEngine) (start n : ℕ) :
    SynthEngine × List RenderOp :=
  if controlRateSamples ≤ s.controlRateCounter + n then
    let s1 := { s.updateControlRate with controlRateCounter := 0 }
    ({ s1 with nodeManager := s1.nodeManager.renderAudio n },
     [RenderOp.control, RenderOp.audio start n s1.nodeManager])
  else
    let s1 := { s with controlRateCounter := s.controlRateCounter + n }
    ({ s1 with nodeManager := s1.nodeManager.renderAudio n },
     [RenderOp.audio start n s1.nodeManager])

/-- `SynthEngine::processEvent`: dispatch on the event tag (CC events are
ignored by the source). -/
def SynthEngine.processEvent (s : SynthEngine) (e : SynthEvent) : SynthEngine :=
  match e.data with
  | .noteOn note vel ch => { s with nodeManager := s.nodeManager.noteOn note vel ch }
  | .noteOff note => { s with nodeManager := s.nodeManager.noteOff note }
  | .cc _ _ => s
  | .pitchBend value => { s with nodeManager := s.nodeManager.setPitchBend value }
  | .parameter paramId value => s.setParameter paramId value

/-- Clamping of an event's sample offset to `[0, numFrames]`
(`SynthEngine::render`). -/
def clampOffset (numFrames : ℕ) (off : ℤ) : ℕ :=
  min (max off 0).toNat numFrames

/-- The event loop of `SynthEngine::render`: for each event, render the slice
from the previous offset up to the event's clamped offset (when non-empty),
apply the event, and continue; after the last event render the remaining
tail. -/
def SynthEngine.renderGo (s : SynthEngine) (lastOffset numFrames : ℕ) :
    List SynthEvent → SynthEngine × List RenderOp
  | [] =>
      if lastOffset < numFrames then s.renderSlice lastOffset (numFrames - lastOffset)
      else (s, [])
  | e :: rest =>
      let off := clampOffset numFrames e.sampleOffset
      let p := if lastOffset < off then s.renderSlice lastOffset (off - lastOffset)
               else (s, [])
      let s2 := p.1.processEvent e
      let q := SynthEngine.renderGo s2 off numFrames rest
      (q.1, p.2 ++ RenderOp.event e :: q.2)

/-- `SynthEngine::render`: an uninitialised engine writes silence and does
nothing; otherwise the sample-accurate event loop runs over the queue's
events in arrival order starting from offset 0. -/
def SynthEngine.render (s : SynthEngine) (events : EventQueue) (numFrames : ℕ) :
    SynthEngine × List RenderOp :=
  if s.initialized = false then (s, [])
  else s.renderGo 0 numFrames events.events

/-! ## Helper lemmas: voice operations preserve the state-machine fields -/

theorem ModalVoice.setMode_state (v : ModalVoice) (i : ℕ) (f : FreqSym) (g w : ℚ) :
    (v.setMode i f g w).state = v.state := by
  unfold ModalVoice.setMode; split <;> rfl

theorem ModalVoice.setMode_midiNote (v : ModalVoice) (i : ℕ) (f : FreqSym) (g w : ℚ) :
    (v.setMode i f g w).midiNote = v.midiNote := by
  unfold ModalVoice.setMode; split <;> rfl

theorem ModalVoice.setMode_age (v : ModalVoice) (i : ℕ) (f : FreqSym) (g w : ℚ) :
    (v.setMode i f g w).age = v.age := by
  unfold ModalVoice.setMode; split <;> rfl

theorem ModalVoice.updateFrequencies_state (v : ModalVoice) :
    v.updateFrequencies.state = v.state := by
  unfold ModalVoice.updateFrequencies
  simp [ModalVoice.setMode_state]

theorem ModalVoice.updateFrequencies_midiNote (v : ModalVoice) :
    v.updateFrequencies.midiNote = v.midiNote := by
  unfold ModalVoice.updateFrequencies
  simp [ModalVoice.setMode_midiNote]

theorem ModalVoice.updateFrequencies_age (v : ModalVoice) :
    v.updateFrequencies.age = v.age := by
  unfold ModalVoice.updateFrequencies
  simp [ModalVoice.setMode_age]

theorem ModalVoice.setPitchBend_state (v : ModalVoice) (b : ℚ) :
    (v.setPitchBend b).state = v.state := by
  unfold ModalVoice.setPitchBend
  simp [ModalVoice.updateFrequencies_state]

theorem ModalVoice.setPitchBend_midiNote (v : ModalVoice) (b : ℚ) :
    (v.setPitchBend b).midiNote = v.midiNote := by
  unfold ModalVoice.setPitchBend
  simp [ModalVoice.updateFrequencies_midiNote]

theorem ModalVoice.setPitchBend_age (v : ModalVoice) (b : ℚ) :
    (v.setPitchBend b).age = v.age := by
  unfold ModalVoice.setPitchBend
  simp [ModalVoice.updateFrequencies_age]

theorem ModalVoice.noteOn_state (v : ModalVoice) (note : ℕ) (vel : ℚ) :
    (v.noteOn note vel).state = VState.attack := by
  unfold ModalVoice.noteOn
  simp [ModalVoice.updateFrequencies_state]

theorem ModalVoice.noteOn_midiNote (v : ModalVoice) (note : ℕ) (vel : ℚ) :
    (v.noteOn note vel).midiNote = note := by
  unfold ModalVoice.noteOn
  simp [ModalVoice.updateFrequencies_midiNote]

theorem ModalVoice.noteOn_age (v : ModalVoice) (note : ℕ) (vel : ℚ) :
    (v.noteOn note vel).age = 0 := by
  unfold ModalVoice.noteOn
  simp [ModalVoice.updateFrequencies_age]

/-- A freshly reset voice reports amplitude 0: every mode's magnitude is 0. -/
theorem ModalVoice.reset_getAmplitude (v : ModalVoice) :
    v.reset.getAmplitude = 0 := by
  unfold ModalVoice.reset ModalVoice.getAmplitude modalNodeReset modalNodeGetAmplitude
    modeAmpTerm
  simp

/-- A freshly reset voice is inactive. -/
theorem ModalVoice.reset_isActive (v : ModalVoice) :
    v.reset.isActive = false := by
  unfold ModalVoice.reset ModalVoice.isActive
  simp

/-! ## C4: event queue backpressure -/

/-- The queue resulting from a sequence of pushes (the flags do not influence
the queue). -/
theorem EventQueue.pushAll_fst (l : List SynthEvent) (q : EventQueue)
    (acc : List Bool) :
    (l.foldl (fun acc e =>
        let p := acc.1.push e
        (p.1, acc.2 ++ [p.2])) (q, acc)).1
      = l.foldl (fun q e => (q.push e).1) q := by
  induction l generalizing q acc with
  | nil => rfl
  | cons e rest ih => simp only [List.foldl_cons]; exact ih _ _

/-- Pushing a list of events stores exactly the prefix that fits in the
remaining capacity. -/
theorem EventQueue.pushList_events (l : List SynthEvent) (q : EventQueue) :
    (l.foldl (fun q e => (q.push e).1) q).events
      = q.events ++ l.take (eventQueueMaxEvents - q.count) := by
  induction l generalizing q with
  | nil => simp
  | cons e rest ih =>
      simp only [List.foldl_cons]
      by_cases h : eventQueueMaxEvents ≤ q.count
      · have h0 : eventQueueMaxEvents - q.count = 0 := by omega
        have hpush : q.push e = (q, false) := by
          unfold EventQueue.push; simp [h]
        rw [hpush, ih q, h0]
        simp
      · have hpush : q.push e = ({ events := q.events ++ [e] }, true) := by
          unfold EventQueue.push; simp [h]
        rw [hpush]
        rw [ih]
        have hc : ({ events := q.events ++ [e] } : EventQueue).count = q.count + 1 := by
          simp [EventQueue.count]
        rw [hc]
        have hn : eventQueueMaxEvents - q.count = (eventQueueMaxEvents - (q.count + 1)) + 1 := by
          omega
        rw [hn]
        simp [List.take_succ_cons]

/-- C4: `push` appends and returns `true` while fewer than 512 events are
stored, returns `false` and stores nothing once 512 are stored; consequently
pushing 513 events into an empty queue stores exactly the first 512, the
earlier events unchanged. -/
theorem eventQueue_backpressure (q : EventQueue) (e : SynthEvent)
    (l : List SynthEvent) (hl : l.length = eventQueueMaxEvents + 1) :
    (q.count < eventQueueMaxEvents →
        q.push e = ({ events := q.events ++ [e] }, true)) ∧
    (eventQueueMaxEvents ≤ q.count → q.push e = (q, false)) ∧
    (EventQueue.pushAll ⟨[]⟩ l).1.events = l.take eventQueueMaxEvents ∧
    (EventQueue.pushAll ⟨[]⟩ l).1.count = eventQueueMaxEvents := by
  refine ⟨fun h => ?_, fun h => ?_, ?_, ?_⟩
  · unfold EventQueue.push; simp [Nat.not_le.mpr h]
  · unfold EventQueue.push; simp [h]
  · unfold EventQueue.pushAll
    rw [EventQueue.pushAll_fst, EventQueue.pushList_events]
    simp [EventQueue.count]
  · unfold EventQueue.pushAll
    rw [EventQueue.pushAll_fst]
    unfold EventQueue.count
    rw [EventQueue.pushList_events]
    simp [EventQueue.count, List.length_take, hl]

/-- Witness for C4 at a concrete queue, event and 513-event list. -/
theorem eventQueue_backpressure_witness :
    ((⟨[]⟩ : EventQueue).count < eventQueueMaxEvents →
        (⟨[]⟩ : EventQueue).push ⟨0, .noteOff 60⟩
          = ({ events := [] ++ [⟨0, .noteOff 60⟩] }, true)) ∧
    (eventQueueMaxEvents ≤ (⟨[]⟩ : EventQueue).count →
        (⟨[]⟩ : EventQueue).push ⟨0, .noteOff 60⟩ = (⟨[]⟩, false)) ∧
    (EventQueue.pushAll ⟨[]⟩ (List.replicate (eventQueueMaxEvents + 1) ⟨0, .noteOff 60⟩)).1.events
      = (List.replicate (eventQueueMaxEvents + 1) ⟨0, .noteOff 60⟩).take eventQueueMaxEvents ∧
    (EventQueue.pushAll ⟨[]⟩ (List.replicate (eventQueueMaxEvents + 1) ⟨0, .noteOff 60⟩)).1.count
      = eventQueueMaxEvents :=
  eventQueue_backpressure ⟨[]⟩ ⟨0, .noteOff 60⟩ _ (by simp)

/-! ## C9: parameter round-trip -/

/-- C9: for every defined parameter id (0–4) and every value in its documented
range `[0, 1]`, `setParameter` followed by `getParameter` returns the value
exactly, with no render call in between. -/
theorem setParameter_getParameter_roundtrip (s : SynthEngine) (paramId : ℕ)
    (value : ℚ) (hid : paramId < 5) (hlo : 0 ≤ value) (hhi : value ≤ 1) :
    (s.setParameter paramId value).getParameter paramId = value := by
  interval_cases paramId <;> rfl

/-! ## Concrete test states (used by witnesses and counterexamples) -/

/-- A prepared 5-node manager: every node initialised at 48 kHz, Vibrant Bass
character data on all nodes, channel routing, accumulate mode. -/
def testNodeManager : NodeManager where
  nodes := fun i => (ModalVoice.new i.val).initVoice 48000
  nodeCharacterIds := fun i => i.val
  currentCharacters := fun _ => characterVibrantBass
  routingMode := .midiChannel
  multiExciteMode := .accumulate
  activeNodeCount := 5
  noteToNode := fun _ => 255
  noteToChannel := fun _ => 255
  pitchBend := 0
  sampleRate := 48000
  maxBufferSize := 2048
  initialized := true

/-- A prepared engine over `testNodeManager` with the constructor's default
parameter values. -/
def testEngine : SynthEngine where
  nodeManager := testNodeManager
  sampleRate := 48000
  maxFrames := 512
  channels := 2
  initialized := true
  controlRateCounter := 0
  bodySize := 1 / 2
  material := 1 / 2
  excite := 1 / 2
  morph := 0
  mix := 1 / 2
  masterGain := 7 / 10
  couplingStrength := 3 / 10
  topologyType := 0
  couplingMode := .complexDiffusion
  nodeCharacterParams := fun i => i.val
  noteRouting := 0
  multiExcite := 1
  modeFrequencyCache := ![1, 2, 3, 9 / 2]
  modeDampingCache := ![1, 6 / 5, 3 / 2, 2]
  modeWeightCache := ![1, 4 / 5, 3 / 5, 2 / 5]
  pokeStrengthCache := 1 / 2
  pokeDurationCache := 10
  personalityCache := 0

/-- The test engine after a note-on on MIDI note 60: node 0 is sounding with
nonzero modal amplitudes. -/
def engineAfterNote : SynthEngine :=
  { testEngine with nodeManager := testEngine.nodeManager.noteOn 60 1 0 }

/-- Witness for C9 at the test engine, parameter 2, value 1/2. -/
theorem setParameter_getParameter_roundtrip_witness :
    (2 : ℕ) < 5 ∧ (0 : ℚ) ≤ 1 / 2 ∧ (1 / 2 : ℚ) ≤ 1 ∧
    (testEngine.setParameter 2 (1 / 2)).getParameter 2 = 1 / 2 :=
  ⟨by norm_num, by norm_num, by norm_num,
    setParameter_getParameter_roundtrip testEngine 2 (1 / 2) (by norm_num)
      (by norm_num) (by norm_num)⟩

/-! ## C1: reset does not clear modal amplitudes -/

/-- Counterexample to C1 as stated: in the engine state reached by a note-on
on note 60, node 0 still reports a nonzero amplitude after `reset()` —
`reset` only releases the nodes (`allNotesOff`), it never zeroes the modal
state. -/
theorem reset_amplitude_counterexample :
    ((engineAfterNote.reset).nodeManager.nodes 0).getAmplitude = 49 / 25 ∧
    (49 / 25 : ℚ) ≠ 0 := by
  constructor
  · norm_num +decide [engineAfterNote, testEngine, testNodeManager, SynthEngine.reset,
      NodeManager.noteOn, NodeManager.noteOnStep, NodeManager.routeNoteToNodes,
      NodeManager.exciteNode, NodeManager.nodeAt, NodeManager.allNotesOff,
      ModalVoice.noteOn, ModalVoice.noteOff, ModalVoice.isActive,
      ModalVoice.setPitchBend, ModalVoice.updateFrequencies, ModalVoice.setMode,
      ModalVoice.setPersonality, ModalVoice.getBaseFrequency, ModalVoice.initVoice,
      ModalVoice.new, ModalVoice.getAmplitude, modalNodeGetAmplitude, modeAmpTerm,
      modalNodeInit, modalNodeSetMode, modalNodeApplyPoke, modalNodeStart,
      audioSynthInit, audioSynthResetPhase, FreqSym.scale, characterVibrantBass,
      Function.update]
  · norm_num

/-- C1 (amended): after `reset()` the control-rate counter is zeroed, the
note map is cleared and every node is Inactive or Release (none keeps
sounding in Attack/Sustain), but the modal amplitudes are left exactly as
they were — they decay to zero only through the nodes' natural release. -/
theorem reset_releases_all_nodes (s : SynthEngine) (hinit : s.initialized = true) :
    (s.reset).controlRateCounter = 0 ∧
    (∀ note, (s.reset).nodeManager.noteToNode note = 255) ∧
    (∀ i : Fin 5, ((s.reset).nodeManager.nodes i).state = VState.inactive ∨
        ((s.reset).nodeManager.nodes i).state = VState.release) ∧
    (∀ i : Fin 5, ∀ k : Fin 4,
        (((s.reset).nodeManager.nodes i).node.modes k).amp
          = ((s.nodeManager.nodes i).node.modes k).amp) := by
  unfold SynthEngine.reset
  rw [if_neg (by simp [hinit])]
  refine ⟨rfl, fun note => rfl, fun i => ?_, fun i k => ?_⟩
  · unfold NodeManager.allNotesOff ModalVoice.noteOff ModalVoice.isActive
    by_cases h : (s.nodeManager.nodes i).state = VState.inactive <;> simp [h]
  · unfold NodeManager.allNotesOff ModalVoice.noteOff ModalVoice.isActive
    by_cases h : (s.nodeManager.nodes i).state = VState.inactive <;> simp [h]

/-- Witness for the amended C1 at the sounding test engine. -/
theorem reset_releases_all_nodes_witness :
    engineAfterNote.initialized = true ∧
    ((engineAfterNote.reset).controlRateCounter = 0 ∧
      (∀ note, (engineAfterNote.reset).nodeManager.noteToNode note = 255) ∧
      (∀ i : Fin 5, ((engineAfterNote.reset).nodeManager.nodes i).state = VState.inactive ∨
          ((engineAfterNote.reset).nodeManager.nodes i).state = VState.release) ∧
      (∀ i : Fin 5, ∀ k : Fin 4,
          (((engineAfterNote.reset).nodeManager.nodes i).node.modes k).amp
            = ((engineAfterNote.nodeManager.nodes i).node.modes k).amp)) :=
  ⟨rfl, reset_releases_all_nodes engineAfterNote rfl⟩


/-! ## C7: node-count changes -/

/-- C7: `setNodeCount` clamps to `[1, 5]`; `allNotesOff` runs before the
structural change (the surviving nodes are exactly the released ones and the
note map is cleared); every node at or beyond the new count is force-reset and
reports amplitude 0. -/
theorem setNodeCount_clamps_and_resets (nm : NodeManager) (count : ℕ) :
    (nm.setNodeCount count).activeNodeCount = max 1 (min count 5) ∧
    (1 ≤ (nm.setNodeCount count).activeNodeCount ∧
      (nm.setNodeCount count).activeNodeCount ≤ 5) ∧
    (∀ note, (nm.setNodeCount count).noteToNode note = 255) ∧
    (∀ i : Fin 5, i.val < max 1 (min count 5) →
        (nm.setNodeCount count).nodes i = (nm.allNotesOff).nodes i) ∧
    (∀ i : Fin 5, max 1 (min count 5) ≤ i.val →
        (nm.setNodeCount count).nodes i = ((nm.allNotesOff).nodes i).reset ∧
        ((nm.setNodeCount count).nodes i).getAmplitude = 0 ∧
        ((nm.setNodeCount count).nodes i).isActive = false) := by
  have hact : (nm.setNodeCount count).activeNodeCount = max 1 (min count 5) := rfl
  have hnodes : (nm.setNodeCount count).nodes = fun i =>
      if max 1 (min count 5) ≤ i.val then ((nm.allNotesOff).nodes i).reset
      else (nm.allNotesOff).nodes i := rfl
  refine ⟨hact, ⟨by rw [hact]; omega, by rw [hact]; omega⟩, fun note => rfl,
    fun i hi => ?_, fun i hi => ?_⟩
  · rw [congrFun hnodes i, if_neg (by omega)]
  · rw [congrFun hnodes i, if_pos hi]
    exact ⟨rfl, ModalVoice.reset_getAmplitude _, ModalVoice.reset_isActive _⟩

/-! ## C8: character validation -/

/-- C8: `validateCharacter` accepts exactly the characters whose fields lie in
the documented ranges, and a custom character assignment mutates nothing at
all when validation fails, while a valid one is stored (custom ID `0xFF`). -/
theorem character_validation_guards_assignment (nm : NodeManager) (idx : ℕ)
    (c : NodeCharacter) (hidx : idx < 5) :
    (validateCharacter c = true ↔
      ((∀ i : Fin 4,
          (1 / 10 ≤ c.modeFreqMult i ∧ c.modeFreqMult i ≤ 20) ∧
          (1 / 100 ≤ c.modeDamping i ∧ c.modeDamping i ≤ 10) ∧
          (0 ≤ c.modeWeight i ∧ c.modeWeight i ≤ 1)) ∧
        (0 ≤ c.pokeStrength ∧ c.pokeStrength ≤ 1) ∧
        (1 ≤ c.pokeDurationMs ∧ c.pokeDurationMs ≤ 50) ∧
        (1 / 10 ≤ c.couplingResponseGain ∧ c.couplingResponseGain ≤ 2))) ∧
    (validateCharacter c = false → nm.setNodeCharacterCustom idx c = nm) ∧
    (validateCharacter c = true →
        (nm.setNodeCharacterCustom idx c).currentCharacters ⟨idx, hidx⟩ = c ∧
        (nm.setNodeCharacterCustom idx c).nodeCharacterIds ⟨idx, hidx⟩ = 255) := by
  refine ⟨by simp [validateCharacter], fun h => ?_, fun h => ?_⟩
  · unfold NodeManager.setNodeCharacterCustom
    rw [dif_pos hidx, if_neg (by simp [h])]
  · unfold NodeManager.setNodeCharacterCustom NodeManager.applyCharacterToNode
    rw [dif_pos hidx, if_pos h]
    by_cases hi : nm.initialized = false <;> simp [hi]

/-- Witness for C8 at the test manager, node 0, the Vibrant Bass character. -/
theorem character_validation_guards_assignment_witness :
    (0 : ℕ) < 5 ∧
    (validateCharacter characterVibrantBass = true →
        (testNodeManager.setNodeCharacterCustom 0 characterVibrantBass).currentCharacters
            ⟨0, by norm_num⟩ = characterVibrantBass) :=
  ⟨by norm_num,
    fun h => ((character_validation_guards_assignment testNodeManager 0
      characterVibrantBass (by norm_num)).2.2 h).1⟩

/-! ## C6: voice reuse -/

theorem ModalVoice.setPersonality_state (v : ModalVoice) (p : Personality) :
    (v.setPersonality p).state = v.state := rfl

theorem ModalVoice.setPersonality_midiNote (v : ModalVoice) (p : Personality) :
    (v.setPersonality p).midiNote = v.midiNote := rfl

theorem ModalVoice.setPersonality_age (v : ModalVoice) (p : Personality) :
    (v.setPersonality p).age = v.age := rfl

/-- The allocator's trigger sequence leaves the voice in Attack. -/
theorem VoiceAllocator.triggerVoice_state (A : VoiceAllocator) (v : ModalVoice)
    (note : ℕ) (vel : ℚ) : (A.triggerVoice v note vel).state = VState.attack := by
  unfold VoiceAllocator.triggerVoice
  simp [ModalVoice.setMode_state, ModalVoice.setPersonality_state,
    ModalVoice.setPitchBend_state, ModalVoice.noteOn_state]

/-- The allocator's trigger sequence stores the triggered note. -/
theorem VoiceAllocator.triggerVoice_midiNote (A : VoiceAllocator) (v : ModalVoice)
    (note : ℕ) (vel : ℚ) : (A.triggerVoice v note vel).midiNote = note := by
  unfold VoiceAllocator.triggerVoice
  simp [ModalVoice.setMode_midiNote, ModalVoice.setPersonality_midiNote,
    ModalVoice.setPitchBend_midiNote, ModalVoice.noteOn_midiNote]

/-- The allocator's trigger sequence restarts the voice's age at 0. -/
theorem VoiceAllocator.triggerVoice_age (A : VoiceAllocator) (v : ModalVoice)
    (note : ℕ) (vel : ℚ) : (A.triggerVoice v note vel).age = 0 := by
  unfold VoiceAllocator.triggerVoice
  simp [ModalVoice.setMode_age, ModalVoice.setPersonality_age,
    ModalVoice.setPitchBend_age, ModalVoice.noteOn_age]

/-- C6: a `noteOn` for a note that is already mapped to a live voice
re-triggers exactly that voice: the same pool index is returned, the
note-to-voice map is unchanged, every other voice is untouched, and the mapped
voice is re-triggered (Attack, carrying the note) — never a second instance. -/
theorem noteOn_reuses_mapped_voice (A : VoiceAllocator) (note : ℕ) (vel : ℚ)
    (i : ℕ) (hinit : A.initialized = true) (hnote : note ≤ 127)
    (hmap : A.noteToVoice note = Int.ofNat i) (hi : i < A.voices.length)
    (hlive : (A.voiceAt i).isActive = true) :
    (A.noteOn note vel).2 = some i ∧
    (A.noteOn note vel).1.noteToVoice = A.noteToVoice ∧
    (∀ j, j ≠ i → (A.noteOn note vel).1.voiceAt j = A.voiceAt j) ∧
    ((A.noteOn note vel).1.voiceAt i).state = VState.attack ∧
    ((A.noteOn note vel).1.voiceAt i).midiNote = note := by
  have hguard : ¬ (A.initialized = false ∨ 127 < note) := by
    simp [hinit]; omega
  have hpos : (0 : ℤ) ≤ A.noteToVoice note := by
    rw [hmap]; exact Int.ofNat_nonneg i
  have htn : (A.noteToVoice note).toNat = i := by rw [hmap]; rfl
  unfold VoiceAllocator.noteOn
  rw [if_neg hguard, if_pos hpos, htn]
  refine ⟨rfl, rfl, fun j hj => ?_, ?_, ?_⟩
  · show (A.voices.set i _).getD j _ = _
    simp [VoiceAllocator.voiceAt, List.getD_eq_getElem?_getD,
      List.getElem?_set_ne (fun h => hj h.symm)]
  · show ((A.voices.set i _).getD i _).state = _
    simp [List.getD_eq_getElem?_getD, List.getElem?_set_self, hi,
      VoiceAllocator.triggerVoice_state]
  · show ((A.voices.set i _).getD i _).midiNote = _
    simp [List.getD_eq_getElem?_getD, List.getElem?_set_self, hi,
      VoiceAllocator.triggerVoice_midiNote]

/-- The two-voice allocator after `noteOn(60, 1.0)`: note 60 is mapped to the
live voice 0. -/
def allocReuse : VoiceAllocator :=
  (((VoiceAllocator.new 2).initAllocator 48000).noteOn 60 1).1

/-- Witness for C6: a second `noteOn(60, 0.5)` before any note-off re-triggers
voice 0. -/
theorem noteOn_reuses_mapped_voice_witness :
    allocReuse.initialized = true ∧ (60 : ℕ) ≤ 127 ∧
    allocReuse.noteToVoice 60 = Int.ofNat 0 ∧ 0 < allocReuse.voices.length ∧
    (allocReuse.voiceAt 0).isActive = true ∧
    ((allocReuse.noteOn 60 (1 / 2)).2 = some 0 ∧
      (allocReuse.noteOn 60 (1 / 2)).1.noteToVoice = allocReuse.noteToVoice ∧
      (∀ j, j ≠ 0 → (allocReuse.noteOn 60 (1 / 2)).1.voiceAt j = allocReuse.voiceAt j) ∧
      ((allocReuse.noteOn 60 (1 / 2)).1.voiceAt 0).state = VState.attack ∧
      ((allocReuse.noteOn 60 (1 / 2)).1.voiceAt 0).midiNote = 60) :=
  ⟨by decide, by decide, by decide, by decide, by decide,
    noteOn_reuses_mapped_voice allocReuse 60 (1 / 2) 0 (by decide) (by decide)
      (by decide) (by decide) (by decide)⟩

/-! ## C10: all-nodes routing records only the first target -/

/-- The excitation loop step touches no node other than its target. -/
theorem NodeManager.noteOnStep_nodes_ne (note : ℕ) (vel : ℚ) (nm : NodeManager)
    (i : ℕ) (j : Fin 5) (h : i ≠ j.val) :
    (NodeManager.noteOnStep note vel nm i).nodes j = nm.nodes j := by
  by_cases h5 : i < 5
  · have hji : ¬ (j = (⟨i, h5⟩ : Fin 5)) := fun he => h (by rw [he])
    simp only [NodeManager.noteOnStep, NodeManager.exciteNode, dif_pos h5]
    split <;> simp [Function.update_apply, hji]
  · simp only [NodeManager.noteOnStep, NodeManager.exciteNode, dif_neg h5]
    split <;> rfl

/-- The excitation loop step puts its target node into Attack carrying the
triggered note (in both multi-excite modes). -/
theorem NodeManager.noteOnStep_nodes_self (note : ℕ) (vel : ℚ) (nm : NodeManager)
    (j : Fin 5) :
    ((NodeManager.noteOnStep note vel nm j.val).nodes j).state = VState.attack ∧
    ((NodeManager.noteOnStep note vel nm j.val).nodes j).midiNote = note := by
  have h5 : j.val < 5 := j.isLt
  have hj : (⟨j.val, h5⟩ : Fin 5) = j := rfl
  simp only [NodeManager.noteOnStep, NodeManager.exciteNode, dif_pos h5, hj]
  split <;>
    simp [Function.update_same, ModalVoice.setPersonality_state,
      ModalVoice.setPersonality_midiNote, ModalVoice.setMode_state,
      ModalVoice.setMode_midiNote, ModalVoice.setPitchBend_state,
      ModalVoice.setPitchBend_midiNote, ModalVoice.noteOn_state,
      ModalVoice.noteOn_midiNote]

/-- Nodes outside the target list are untouched by the excitation loop. -/
theorem NodeManager.noteOnFold_nodes_notMem (note : ℕ) (vel : ℚ)
    (l : List ℕ) (nm : NodeManager) (j : Fin 5) (hj : j.val ∉ l) :
    ((l.foldl (NodeManager.noteOnStep note vel) nm).nodes j) = nm.nodes j := by
  induction l generalizing nm with
  | nil => rfl
  | cons i rest ih =>
      simp only [List.foldl_cons]
      have hji : i ≠ j.val := fun he => hj (by simp [he])
      rw [ih _ (fun hmem => hj (List.mem_cons_of_mem _ hmem)),
        NodeManager.noteOnStep_nodes_ne note vel nm i j hji]

/-- Every node in the target list ends the excitation loop in Attack with the
triggered note. -/
theorem NodeManager.noteOnFold_attack (note : ℕ) (vel : ℚ)
    (l : List ℕ) (nm : NodeManager) (j : Fin 5) (hj : j.val ∈ l) :
    (((l.foldl (NodeManager.noteOnStep note vel) nm).nodes j).state = VState.attack ∧
      ((l.foldl (NodeManager.noteOnStep note vel) nm).nodes j).midiNote = note) := by
  induction l generalizing nm with
  | nil => cases hj
  | cons i rest ih =>
      simp only [List.foldl_cons]
      by_cases hmem : j.val ∈ rest
      · exact ih _ hmem
      · have hji : i = j.val := by
          rcases List.mem_cons.mp hj with h | h
          · exact h.symm
          · exact absurd h hmem
        rw [NodeManager.noteOnFold_nodes_notMem note vel rest _ j hmem, hji]
        exact NodeManager.noteOnStep_nodes_self note vel nm j

/-- C10: in all-nodes routing a `noteOn` excites every node below the active
count but records only node 0 in the note map; the following `noteOff` puts
only node 0 into Release while the other excited nodes keep sounding
(their state is untouched). -/
theorem allNodes_routing_noteOff_releases_only_first (nm : NodeManager)
    (note : ℕ) (vel : ℚ) (ch : ℕ) (hinit : nm.initialized = true)
    (hroute : nm.routingMode = NoteRoutingMode.allNodes) (hnote : note ≤ 127)
    (hc1 : 1 ≤ nm.activeNodeCount) (hc5 : nm.activeNodeCount ≤ 5) :
    (∀ i : Fin 5, i.val < nm.activeNodeCount →
        ((nm.noteOn note vel ch).nodes i).state = VState.attack ∧
        ((nm.noteOn note vel ch).nodes i).midiNote = note) ∧
    (nm.noteOn note vel ch).noteToNode note = 0 ∧
    (((nm.noteOn note vel ch).noteOff note).nodes 0).state = VState.release ∧
    ((nm.noteOn note vel ch).noteOff note).noteToNode note = 255 ∧
    (∀ i : Fin 5, 0 < i.val →
        ((nm.noteOn note vel ch).noteOff note).nodes i = (nm.noteOn note vel ch).nodes i) := by
  have hguard : ¬ (nm.initialized = false ∨ 127 < note) := by simp [hinit]; omega
  obtain ⟨m, hm⟩ : ∃ m, nm.activeNodeCount = m + 1 :=
    ⟨nm.activeNodeCount - 1, by omega⟩
  have htargets : nm.routeNoteToNodes ch = List.range nm.activeNodeCount := by
    unfold NodeManager.routeNoteToNodes; rw [hroute]
  have hrange : List.range nm.activeNodeCount
      = 0 :: (List.range m).map Nat.succ := by
    rw [hm, List.range_succ_eq_map]
  have hnoteOn : nm.noteOn note vel ch
      = { (List.range nm.activeNodeCount).foldl (NodeManager.noteOnStep note vel) nm with
          noteToNode := Function.update
            ((List.range nm.activeNodeCount).foldl (NodeManager.noteOnStep note vel) nm).noteToNode
            note 0
          noteToChannel := Function.update
            ((List.range nm.activeNodeCount).foldl (NodeManager.noteOnStep note vel) nm).noteToChannel
            note ch } := by
    unfold NodeManager.noteOn
    rw [if_neg hguard, htargets]
    rw [hrange]
  have hmain : ∀ i : Fin 5, i.val < nm.activeNodeCount →
      ((nm.noteOn note vel ch).nodes i).state = VState.attack ∧
      ((nm.noteOn note vel ch).nodes i).midiNote = note := by
    intro i hi
    rw [hnoteOn]
    exact NodeManager.noteOnFold_attack note vel _ nm i (List.mem_range.mpr hi)
  have hmap : (nm.noteOn note vel ch).noteToNode note = 0 := by
    rw [hnoteOn]; simp
  refine ⟨hmain, hmap, ?_, ?_, ?_⟩
  · unfold NodeManager.noteOff
    rw [if_neg (by omega), hmap, dif_pos (by norm_num)]
    have h0 : ((nm.noteOn note vel ch).nodes ⟨0, by norm_num⟩).state = VState.attack :=
      (hmain ⟨0, by norm_num⟩ (show (0 : ℕ) < nm.activeNodeCount by omega)).1
    show ((Function.update _ _ _ : Fin 5 → ModalVoice) 0).state = _
    rw [show ((0 : Fin 5) = ⟨0, by norm_num⟩) from rfl, Function.update_same]
    unfold ModalVoice.noteOff
    rw [if_neg (by rw [h0]; intro hfalse; cases hfalse)]
  · unfold NodeManager.noteOff
    rw [if_neg (by omega), hmap, dif_pos (by norm_num)]
    simp
  · intro i hi
    unfold NodeManager.noteOff
    rw [if_neg (by omega), hmap, dif_pos (by norm_num)]
    have hne : (⟨0, by norm_num⟩ : Fin 5) ≠ i := by
      intro he
      rw [← he] at hi
      simp at hi
    show (Function.update _ _ _ : Fin 5 → ModalVoice) i = _
    rw [Function.update_noteq (fun he => hne he.symm)]

/-- The test manager in all-nodes routing with 3 active nodes. -/
def nmAllNodes : NodeManager :=
  { testNodeManager with routingMode := .allNodes, activeNodeCount := 3 }

/-- Witness for C10 at the all-nodes test manager, note 60, full velocity. -/
theorem allNodes_routing_noteOff_witness :
    nmAllNodes.initialized = true ∧
    nmAllNodes.routingMode = NoteRoutingMode.allNodes ∧ (60 : ℕ) ≤ 127 ∧
    1 ≤ nmAllNodes.activeNodeCount ∧ nmAllNodes.activeNodeCount ≤ 5 ∧
    ((nmAllNodes.noteOn 60 1 0).noteToNode 60 = 0 ∧
      (((nmAllNodes.noteOn 60 1 0).noteOff 60).nodes 0).state = VState.release) :=
  ⟨by decide, by decide, by decide, by decide, by decide,
    (allNodes_routing_noteOff_releases_only_first nmAllNodes 60 1 0 (by decide)
        (by decide) (by decide) (by decide) (by decide)).2.1,
    (allNodes_routing_noteOff_releases_only_first nmAllNodes 60 1 0 (by decide)
        (by decide) (by decide) (by decide) (by decide)).2.2.1⟩

/-! ## C5: voice stealing -/

/-- Splitting an index range at `j`. -/
theorem range_split_at (j d : ℕ) :
    List.range (j + d) = List.range j ++ List.range' j d := by
  rw [List.range_eq_range', List.range_eq_range', Nat.add_comm j d]
  have h := List.range'_append 0 j d 1
  simpa using h.symm

/-- The steal scan never exceeds a strict bound on the ages it has seen. -/
theorem VoiceAllocator.stealFold_bound (A : VoiceAllocator) (C : ℕ) :
    ∀ (l : List ℕ) (acc : Option ℕ × ℕ),
      (∀ i ∈ l, (A.voiceAt i).age < C) → acc.2 < C →
      (l.foldl A.stealStep acc).2 < C := by
  intro l
  induction l with
  | nil => intro acc _ hacc; exact hacc
  | cons i rest ih =>
      intro acc h hacc
      simp only [List.foldl_cons]
      refine ih _ (fun x hx => h x (List.mem_cons_of_mem _ hx)) ?_
      show (if (A.voiceAt i).isActive = true ∧ acc.2 < (A.voiceAt i).age
            then ((some i, (A.voiceAt i).age) : Option ℕ × ℕ) else acc).2 < C
      split
      · exact h i (List.mem_cons_self _ _)
      · exact hacc

/-- The steal scan keeps its candidate when no remaining age strictly exceeds
the running maximum. -/
theorem VoiceAllocator.stealFold_fixed (A : VoiceAllocator) :
    ∀ (l : List ℕ) (acc : Option ℕ × ℕ),
      (∀ i ∈ l, (A.voiceAt i).age ≤ acc.2) →
      l.foldl A.stealStep acc = acc := by
  intro l
  induction l with
  | nil => intro acc _; rfl
  | cons i rest ih =>
      intro acc h
      simp only [List.foldl_cons]
      have hstep : A.stealStep acc i = acc := by
        show (if (A.voiceAt i).isActive = true ∧ acc.2 < (A.voiceAt i).age
              then ((some i, (A.voiceAt i).age) : Option ℕ × ℕ) else acc) = acc
        rw [if_neg]
        rintro ⟨_, hlt⟩
        exact absurd (h i (List.mem_cons_self _ _)) (Nat.not_le.mpr hlt)
      rw [hstep]
      exact ih _ (fun x hx => h x (List.mem_cons_of_mem _ hx))

/-- When a unique strictly-oldest live voice of positive age exists within the
active node count, the steal scan selects exactly it. -/
theorem VoiceAllocator.stealScan_unique_max (A : VoiceAllocator) (j : ℕ)
    (hj : j < A.activeNodeCount)
    (hactive : (A.voiceAt j).isActive = true)
    (hpos : 0 < (A.voiceAt j).age)
    (hmax : ∀ i, i < A.activeNodeCount → i ≠ j → (A.voiceAt i).age < (A.voiceAt j).age) :
    A.stealScan = (some j, (A.voiceAt j).age) := by
  unfold VoiceAllocator.stealScan
  have hd : A.activeNodeCount - j = (A.activeNodeCount - j - 1) + 1 := by omega
  have hsplit : A.activeNodeCount = j + (A.activeNodeCount - j) := by omega
  rw [hsplit, range_split_at, hd, List.range'_succ, List.foldl_append]
  have hacc1 : ((List.range j).foldl A.stealStep (none, 0)).2 < (A.voiceAt j).age := by
    refine VoiceAllocator.stealFold_bound A _ _ _ (fun i hi => ?_) hpos
    have hij := List.mem_range.mp hi
    exact hmax i (by omega) (by omega)
  simp only [List.foldl_cons]
  have hstepj : A.stealStep ((List.range j).foldl A.stealStep (none, 0)) j
      = (some j, (A.voiceAt j).age) := by
    show (if (A.voiceAt j).isActive = true
              ∧ ((List.range j).foldl A.stealStep (none, 0)).2 < (A.voiceAt j).age
          then ((some j, (A.voiceAt j).age) : Option ℕ × ℕ) else _)
        = (some j, (A.voiceAt j).age)
    rw [if_pos ⟨hactive, hacc1⟩]
  rw [hstepj]
  refine VoiceAllocator.stealFold_fixed A _ _ (fun i hi => ?_)
  have hmem := List.mem_range'_1.mp hi
  exact Nat.le_of_lt (hmax i (by omega) (by omega))

/-- C5 (amended): when every voice within the active node count is live and a
unique strictly-oldest voice with positive age exists, a `noteOn` for an
unmapped note force-resets exactly that voice and allocates it: it is
re-triggered on the new note, the note maps to it, and no other voice is
touched.  (The choice is a pure function of the allocator state, hence
deterministic across repeated runs.) -/
theorem noteOn_steals_unique_oldest (A : VoiceAllocator) (note : ℕ) (vel : ℚ)
    (j : ℕ) (hinit : A.initialized = true) (hnote : note ≤ 127)
    (hunmapped : A.noteToVoice note < 0)
    (hall : ∀ i, i < A.activeNodeCount → (A.voiceAt i).isActive = true)
    (hj : j < A.activeNodeCount) (hjlen : j < A.voices.length)
    (hpos : 0 < (A.voiceAt j).age)
    (hmax : ∀ i, i < A.activeNodeCount → i ≠ j → (A.voiceAt i).age < (A.voiceAt j).age) :
    (A.noteOn note vel).2 = some j ∧
    (A.noteOn note vel).1.noteToVoice note = Int.ofNat j ∧
    ((A.noteOn note vel).1.voiceAt j).state = VState.attack ∧
    ((A.noteOn note vel).1.voiceAt j).midiNote = note ∧
    ((A.noteOn note vel).1.voiceAt j).age = 0 ∧
    (∀ i, i ≠ j → (A.noteOn note vel).1.voiceAt i
        = if i = j then (A.noteOn note vel).1.voiceAt i else A.voiceAt i) := by
  have hguard : ¬ (A.initialized = false ∨ 127 < note) := by simp [hinit]; omega
  have hfind : A.findFreeIdx = none := by
    unfold VoiceAllocator.findFreeIdx
    rw [List.find?_eq_none]
    intro i hi
    rw [hall i (List.mem_range.mp hi)]
    decide
  have hscan := VoiceAllocator.stealScan_unique_max A j hj
    (hall j hj) hpos hmax
  have hsteal : A.stealOldestVoice
      = ({ A with voices := A.voices.set j (A.voiceAt j).reset }, some j) := by
    unfold VoiceAllocator.stealOldestVoice
    rw [hscan]
  unfold VoiceAllocator.noteOn
  rw [if_neg hguard, if_neg (by omega), hfind, hsteal]
  refine ⟨rfl, by simp, ?_, ?_, ?_, fun i hi => ?_⟩
  · simp [VoiceAllocator.voiceAt, List.getD_eq_getElem?_getD,
      List.getElem?_set_self, hjlen, VoiceAllocator.triggerVoice_state]
  · simp [VoiceAllocator.voiceAt, List.getD_eq_getElem?_getD,
      List.getElem?_set_self, hjlen, VoiceAllocator.triggerVoice_midiNote]
  · simp [VoiceAllocator.voiceAt, List.getD_eq_getElem?_getD,
      List.getElem?_set_self, hjlen, VoiceAllocator.triggerVoice_age]
  · rw [if_neg hi]
    have hji : j ≠ i := fun he => hi he.symm
    simp [VoiceAllocator.voiceAt, List.getD_eq_getElem?_getD,
      List.getElem?_set_ne hji]

/-- A one-voice allocator whose only voice is live with age 0 (a note-on in
the same control period). -/
def allocSingle : VoiceAllocator :=
  (((VoiceAllocator.new 1).initAllocator 48000).noteOn 60 1).1

/-- Counterexample to C5 as stated: every instance within the active node
count is live, note 62 is unmapped, and the unique live voice trivially has
the strictly greatest age — yet `noteOn` steals nothing and changes nothing,
because the scan's running maximum starts at 0 and only a strictly greater
age is selected. -/
theorem steal_age_zero_counterexample :
    allocSingle.activeNodeCount = 1 ∧
    (allocSingle.voiceAt 0).isActive = true ∧
    (allocSingle.voiceAt 0).age = 0 ∧
    allocSingle.noteToVoice 62 < 0 ∧
    (allocSingle.noteOn 62 1).2 = none ∧
    (allocSingle.noteOn 62 1).1.voiceAt 0 = allocSingle.voiceAt 0 ∧
    (allocSingle.noteOn 62 1).1.noteToVoice 62 = allocSingle.noteToVoice 62 :=
  ⟨by decide, by decide, by decide, by decide, rfl, rfl, rfl⟩

/-- A two-voice allocator with both voices live: voice 0 has age 3, voice 1
age 0 (reached by a note-on, three control updates, then a second note-on). -/
def allocSteal : VoiceAllocator :=
  ((((((VoiceAllocator.new 2).initAllocator 48000).noteOn 60 1).1.updateVoices).updateVoices).updateVoices.noteOn 64 1).1

/-- Witness for the amended C5: with both voices live and ages 3 and 0, the
note-on for the unmapped note 67 steals exactly voice 0 (the strictly
oldest). -/
theorem noteOn_steals_unique_oldest_witness :
    allocSteal.initialized = true ∧
    allocSteal.noteToVoice 67 < 0 ∧
    0 < (allocSteal.voiceAt 0).age ∧
    ((allocSteal.noteOn 67 1).2 = some 0 ∧
      (allocSteal.noteOn 67 1).1.noteToVoice 67 = Int.ofNat 0) := by
  have hc : allocSteal.activeNodeCount = 2 := by decide
  have hall : ∀ i, i < allocSteal.activeNodeCount →
      (allocSteal.voiceAt i).isActive = true := by
    intro i hi
    rw [hc] at hi
    interval_cases i <;> decide
  have hmax : ∀ i, i < allocSteal.activeNodeCount → i ≠ 0 →
      (allocSteal.voiceAt i).age < (allocSteal.voiceAt 0).age := by
    intro i hi hne
    rw [hc] at hi
    interval_cases i
    · exact absurd rfl hne
    · decide
  have h := noteOn_steals_unique_oldest allocSteal 67 1 0 (by decide) (by decide)
    (by decide) hall (by decide) (by decide) (by decide) hmax
  exact ⟨by decide, by decide, by decide, h.1, h.2.1⟩

/-! ## C2: sample-accurate event scheduling -/

/-- One step of the schedule the spec describes: a rendered buffer range or an
event applied at a boundary. -/
inductive SchedStep where
  | renderRange (lo hi : ℕ)
  | apply (e : SynthEvent)
deriving DecidableEq

/-- The observable schedule of a render trace: audio slices as buffer ranges,
events as applications (control updates carry no schedule content). -/
def eraseOps : List RenderOp → List SchedStep
  | [] => []
  | RenderOp.control :: rest => eraseOps rest
  | RenderOp.audio s l _ :: rest => SchedStep.renderRange s (s + l) :: eraseOps rest
  | RenderOp.event e :: rest => SchedStep.apply e :: eraseOps rest

/-- The schedule described by the spec, from a previous offset: for each event
in arrival order, clamp its offset to `[0, frameCount]`, render the slice from
the previous offset up to it (when non-empty), apply the event at that
boundary; after the last event render the remaining tail slice. -/
def specScheduleGo (numFrames : ℕ) (prev : ℕ) : List SynthEvent → List SchedStep
  | [] => if prev < numFrames then [SchedStep.renderRange prev numFrames] else []
  | e :: rest =>
      let t := clampOffset numFrames e.sampleOffset
      (if prev < t then [SchedStep.renderRange prev t] else [])
        ++ SchedStep.apply e :: specScheduleGo numFrames t rest

/-- The spec's schedule for a whole block, starting at offset 0. -/
def specSchedule (numFrames : ℕ) (events : List SynthEvent) : List SchedStep :=
  specScheduleGo numFrames 0 events

theorem eraseOps_append (a b : List RenderOp) :
    eraseOps (a ++ b) = eraseOps a ++ eraseOps b := by
  induction a with
  | nil => rfl
  | cons op rest ih => cases op <;> simp [eraseOps, ih]

/-- A rendered slice contributes exactly its buffer range to the schedule. -/
theorem renderSlice_erase (s : SynthEngine) (start n : ℕ) :
    eraseOps (s.renderSlice start n).2 = [SchedStep.renderRange start (start + n)] := by
  unfold SynthEngine.renderSlice
  split <;> rfl

/-- The render loop produces exactly the spec's schedule (any previous
offset). -/
theorem renderGo_erase (numFrames : ℕ) (events : List SynthEvent) :
    ∀ (s : SynthEngine) (lastOffset : ℕ),
      eraseOps (s.renderGo lastOffset numFrames events).2
        = specScheduleGo numFrames lastOffset events := by
  induction events with
  | nil =>
      intro s lastOffset
      simp only [SynthEngine.renderGo, specScheduleGo]
      split
      next h =>
        rw [renderSlice_erase]
        have he : lastOffset + (numFrames - lastOffset) = numFrames := by omega
        rw [he]
      next h => rfl
  | cons e rest ih =>
      intro s lastOffset
      simp only [SynthEngine.renderGo, specScheduleGo]
      rw [eraseOps_append]
      by_cases hlt : lastOffset < clampOffset numFrames e.sampleOffset
      · rw [if_pos hlt, if_pos hlt, renderSlice_erase]
        have he : lastOffset + (clampOffset numFrames e.sampleOffset - lastOffset)
            = clampOffset numFrames e.sampleOffset := by omega
        rw [he]
        simp [eraseOps, ih]
      · rw [if_neg hlt, if_neg hlt]
        simp [eraseOps, ih]

/-- C2: for every initialised engine, event queue and frame count, the render
call's observable schedule is exactly the spec's: events processed in arrival
order, each offset clamped to `[0, frameCount]`, the slice from the previous
offset rendered before each event, the event applied at that exact boundary,
and the remaining tail rendered after the last event. -/
theorem render_schedules_events_sample_accurately (s : SynthEngine)
    (q : EventQueue) (numFrames : ℕ) (hinit : s.initialized = true) :
    eraseOps (s.render q numFrames).2 = specSchedule numFrames q.events := by
  unfold SynthEngine.render
  rw [if_neg (by simp [hinit])]
  exact renderGo_erase numFrames q.events s 0

/-- Witness for C2 at the test engine with events at offsets 5, 5, 40 in a
64-frame block (including an out-of-range offset clamp check at 100). -/
theorem render_schedules_events_witness :
    testEngine.initialized = true ∧
    eraseOps (testEngine.render
        ⟨[⟨5, .noteOn 60 1 0⟩, ⟨5, .pitchBend (1 / 2)⟩, ⟨40, .noteOff 60⟩,
          ⟨100, .parameter 4 1⟩]⟩ 64).2
      = specSchedule 64
          [⟨5, .noteOn 60 1 0⟩, ⟨5, .pitchBend (1 / 2)⟩, ⟨40, .noteOff 60⟩,
            ⟨100, .parameter 4 1⟩] :=
  ⟨rfl, render_schedules_events_sample_accurately testEngine _ 64 rfl⟩

/-! ## C3: split invariance of rendering -/

/-- Shift a render op's buffer position (re-basing a later block's trace into
the coordinates of a larger block). -/
def shiftOp (d : ℕ) : RenderOp → RenderOp
  | RenderOp.audio start len nm => RenderOp.audio (start + d) len nm
  | op => op

/-- Shift a whole trace. -/
def shiftOps (d : ℕ) (ops : List RenderOp) : List RenderOp :=
  ops.map (shiftOp d)

/-- The engine-state effect of a rendered slice does not depend on where in
the output buffer the slice lands. -/
theorem renderSlice_fst_start_irrel (s : SynthEngine) (a b n : ℕ) :
    (s.renderSlice a n).1 = (s.renderSlice b n).1 := by
  unfold SynthEngine.renderSlice
  split <;> rfl

/-- Shifting a slice's trace re-bases its buffer position. -/
theorem shiftOps_renderSlice (s : SynthEngine) (a d n : ℕ) :
    shiftOps d (s.renderSlice a n).2 = (s.renderSlice (a + d) n).2 := by
  unfold SynthEngine.renderSlice
  split <;> rfl

theorem setParameter_initialized (s : SynthEngine) (pid : ℕ) (v : ℚ) :
    (s.setParameter pid v).initialized = s.initialized := by
  unfold SynthEngine.setParameter
  split <;> rfl

theorem processEvent_initialized (s : SynthEngine) (e : SynthEvent) :
    (s.processEvent e).initialized = s.initialized := by
  rcases e with ⟨off, data⟩
  cases data <;> simp [SynthEngine.processEvent, setParameter_initialized]

theorem renderSlice_initialized (s : SynthEngine) (a n : ℕ) :
    ((s.renderSlice a n).1).initialized = s.initialized := by
  unfold SynthEngine.renderSlice
  split <;> rfl

/-- The render loop never changes the engine's initialised flag. -/
theorem renderGo_initialized (events : List SynthEvent) :
    ∀ (s : SynthEngine) (lastOffset numFrames : ℕ),
      ((s.renderGo lastOffset numFrames events).1).initialized = s.initialized := by
  induction events with
  | nil =>
      intro s lastOffset numFrames
      simp only [SynthEngine.renderGo]
      split
      · exact renderSlice_initialized s lastOffset _
      · rfl
  | cons e rest ih =>
      intro s lastOffset numFrames
      simp only [SynthEngine.renderGo]
      rw [ih, processEvent_initialized]
      by_cases h : lastOffset < clampOffset numFrames e.sampleOffset
      · rw [if_pos h]
        exact renderSlice_initialized s lastOffset _
      · rw [if_neg h]

/-- C3: rendering 64 frames with events at offsets 5, 5, 40 (any payloads)
yields exactly the same final engine state — control-rate counter included —
and the same trace as rendering a first block of 40 frames with the same
events followed by a second block of 24 frames with the state carried over;
the second block's trace re-based by 40 frames.  The control-update counter
accumulates across slices identically in both runs. -/
theorem render_split_invariance (s : SynthEngine) (d1 d2 d3 : SynthEventData)
    (hinit : s.initialized = true) :
    (s.render ⟨[⟨5, d1⟩, ⟨5, d2⟩, ⟨40, d3⟩]⟩ 64).1
      = ((s.render ⟨[⟨5, d1⟩, ⟨5, d2⟩, ⟨40, d3⟩]⟩ 40).1.render ⟨[]⟩ 24).1 ∧
    (s.render ⟨[⟨5, d1⟩, ⟨5, d2⟩, ⟨40, d3⟩]⟩ 64).2
      = (s.render ⟨[⟨5, d1⟩, ⟨5, d2⟩, ⟨40, d3⟩]⟩ 40).2
        ++ shiftOps 40 ((s.render ⟨[⟨5, d1⟩, ⟨5, d2⟩, ⟨40, d3⟩]⟩ 40).1.render ⟨[]⟩ 24).2 := by
  have hc64a : clampOffset 64 (5 : ℤ) = 5 := by decide
  have hc64b : clampOffset 64 (40 : ℤ) = 40 := by decide
  have hc40a : clampOffset 40 (5 : ℤ) = 5 := by decide
  have hc40b : clampOffset 40 (40 : ℤ) = 40 := by decide
  have hnotinit : ¬ (s.initialized = false) := by simp [hinit]
  unfold SynthEngine.render
  rw [if_neg hnotinit, if_neg hnotinit]
  rw [if_neg (by rw [renderGo_initialized]; exact hnotinit)]
  simp only [SynthEngine.renderGo, hc64a, hc64b, hc40a, hc40b]
  norm_num
  rw [renderSlice_fst_start_irrel _ 40 0 24, shiftOps_renderSlice _ 0 40 24]
  norm_num

/-- Witness for C3 at the test engine, with a note-on, pitch-bend and
note-off as the three events. -/
theorem render_split_invariance_witness :
    testEngine.initialized = true ∧
    ((testEngine.render
          ⟨[⟨5, .noteOn 60 1 0⟩, ⟨5, .pitchBend (1 / 2)⟩, ⟨40, .noteOff 60⟩]⟩ 64).1
        = ((testEngine.render
            ⟨[⟨5, .noteOn 60 1 0⟩, ⟨5, .pitchBend (1 / 2)⟩, ⟨40, .noteOff 60⟩]⟩ 40).1.render
            ⟨[]⟩ 24).1 ∧
      (testEngine.render
          ⟨[⟨5, .noteOn 60 1 0⟩, ⟨5, .pitchBend (1 / 2)⟩, ⟨40, .noteOff 60⟩]⟩ 64).2
        = (testEngine.render
            ⟨[⟨5, .noteOn 60 1 0⟩, ⟨5, .pitchBend (1 / 2)⟩, ⟨40, .noteOff 60⟩]⟩ 40).2
          ++ shiftOps 40 ((testEngine.render
              ⟨[⟨5, .noteOn 60 1 0⟩, ⟨5, .pitchBend (1 / 2)⟩, ⟨40, .noteOff 60⟩]⟩ 40).1.render
              ⟨[]⟩ 24).2) :=
  ⟨rfl, render_split_invariance testEngine (.noteOn 60 1 0) (.pitchBend (1 / 2))
    (.noteOff 60) rfl⟩
